import Mathlib

/-!
Verification of the lmcnova backend LMS (a FastAPI + MongoDB application)
against its natural-language specification.  The Python route handlers and
utility functions are shallowly embedded as pure Lean functions over an
explicit database state: MongoDB collections become lists of documents,
while datetime.utcnow() timestamps and uuid4() identifiers become explicit
parameters supplied by the caller.

Python float arithmetic on durations and percentages is modelled exactly
over the rationals.  Every float expression of the source is embedded as a
single mkRat of integer expressions (so that it evaluates by kernel
reduction); bridge lemmas identify each with the corresponding rational
arithmetic expression.  For the integer ranges this program handles, IEEE
double rounding never moves one of these values across an integer or
comparison boundary, so the exact-rational model agrees with the float
computation.
-/

namespace LMS

/-- Python int() applied to a rational number: truncation toward zero. -/
def pyInt (q : ℚ) : Int := q.num.tdiv (q.den : Int)

/-- The constant COMPLETION_THRESHOLD = 0.95 from utils/progress.py. -/
def COMPLETION_THRESHOLD : ℚ := mkRat 95 100

/-- The product duration * COMPLETION_THRESHOLD from clamp_progress, as an
exact rational, written with mkRat so that it evaluates by kernel
reduction. -/
def durationTimesThreshold (d : Int) : ℚ := mkRat (95 * d) 100

lemma durationTimesThreshold_eq (d : Int) :
    durationTimesThreshold d = (d : ℚ) * COMPLETION_THRESHOLD := by
  rw [durationTimesThreshold, COMPLETION_THRESHOLD, Rat.mkRat_eq_div,
    Rat.mkRat_eq_div]
  push_cast
  ring

lemma pyInt_eq_floor (q : ℚ) (hq : 0 ≤ q) : pyInt q = ⌊q⌋ := by
  rw [pyInt, Rat.floor_def,
    Int.tdiv_eq_ediv (Rat.num_nonneg.mpr hq) (by positivity)]

/-- Embedding of clamp_progress from utils/progress.py: if duration is
nonpositive it returns (0, 0, completed=true); otherwise it clamps both
inputs into the interval from 0 to duration and computes completion as the
clamped last position at or above int(duration * COMPLETION_THRESHOLD), or
the clamped seconds watched at or above duration. -/
def clamp_progress (seconds_watched last_position_sec duration : Int) :
    Int × Int × Bool :=
  if duration ≤ 0 then (0, 0, true)
  else
    let sw := max 0 (min seconds_watched duration)
    let lp := max 0 (min last_position_sec duration)
    let completed :=
      decide (pyInt (durationTimesThreshold duration) ≤ lp) ||
        decide (duration ≤ sw)
    (sw, lp, completed)

/-- The completion rule as claim C1 words it, for comparison with the code:
identical to clamp_progress except that the 95 percent threshold is the
exact rational product duration * 0.95, with no integer truncation. -/
def clamp_progress_claimC1 (seconds_watched last_position_sec duration : Int) :
    Int × Int × Bool :=
  if duration ≤ 0 then (0, 0, true)
  else
    let sw := max 0 (min seconds_watched duration)
    let lp := max 0 (min last_position_sec duration)
    let completed :=
      decide (durationTimesThreshold duration ≤ (lp : ℚ)) ||
        decide (duration ≤ sw)
    (sw, lp, completed)

/-- C1 counterexample: at input (seconds_watched, last_position, duration)
= (0, 95, 101) the code marks the video completed, although the exact
product 101 * 0.95 = 95.95 exceeds the clamped last position 95 and the
seconds watched do not reach the duration, so the claimed exact-product
rule would give completed = false.  The code truncates the threshold to
int(101 * 0.95) = 95. -/
theorem C1_counterexample :
    clamp_progress 0 95 101 = (0, 95, true) ∧
    clamp_progress_claimC1 0 95 101 = (0, 95, false) ∧
    ¬ ((101 : ℚ) * COMPLETION_THRESHOLD ≤ (95 : ℚ)) ∧
    ¬ ((101 : Int) ≤ (0 : Int)) := by
  refine ⟨by decide, by decide, ?_, by decide⟩
  have h := durationTimesThreshold_eq 101
  rw [show (((101 : Int) : ℚ)) = (101 : ℚ) by norm_num] at h
  rw [← h]
  decide

/-- C1 amended: clamp_progress returns (0, 0, completed=true) when the
duration is nonpositive; otherwise it returns both inputs clamped to the
interval from 0 to duration, and completed holds exactly when the clamped
last position reaches the integer truncation (floor) of duration * 0.95 or
the clamped seconds watched reach the duration. -/
theorem C1_amended :
    (∀ sw lp d : Int, d ≤ 0 → clamp_progress sw lp d = (0, 0, true)) ∧
    (∀ sw lp d : Int, 0 < d →
      (clamp_progress sw lp d).1 = max 0 (min sw d) ∧
      (clamp_progress sw lp d).2.1 = max 0 (min lp d) ∧
      ((clamp_progress sw lp d).2.2 = true ↔
        (⌊(d : ℚ) * COMPLETION_THRESHOLD⌋ ≤ max 0 (min lp d) ∨
          d ≤ max 0 (min sw d)))) := by
  constructor
  · intro sw lp d hd
    simp [clamp_progress, hd]
  · intro sw lp d hd
    have hd0 : ¬ d ≤ 0 := not_le.mpr hd
    have hq : (0 : ℚ) ≤ (d : ℚ) * COMPLETION_THRESHOLD := by
      have hdq : (0 : ℚ) ≤ (d : ℚ) := by exact_mod_cast hd.le
      have ht : (0 : ℚ) ≤ COMPLETION_THRESHOLD := by
        rw [COMPLETION_THRESHOLD, Rat.mkRat_eq_div]; norm_num
      exact mul_nonneg hdq ht
    have hpy : pyInt (durationTimesThreshold d) = ⌊(d : ℚ) * COMPLETION_THRESHOLD⌋ := by
      rw [durationTimesThreshold_eq, pyInt_eq_floor _ hq]
    refine ⟨?_, ?_, ?_⟩ <;>
      simp [clamp_progress, hd0, hpy, decide_eq_true_iff]

/-- Witness for C1 amended, instantiated at duration -2 (the nonpositive
branch) and at the point (0, 95, 101) for the positive branch. -/
theorem C1_amended_witness :
    clamp_progress 3 7 (-2) = (0, 0, true) ∧
    ((clamp_progress 0 95 101).2.2 = true ↔
      (⌊(101 : Int) * COMPLETION_THRESHOLD⌋ ≤ max 0 (min (95 : Int) 101) ∨
        (101 : Int) ≤ max 0 (min 0 101))) :=
  ⟨C1_amended.1 3 7 (-2) (by norm_num), (C1_amended.2 0 95 101 (by norm_num)).2.2⟩

/-! ## Database documents and state

One structure per MongoDB collection document, with the source field
names.  Optional fields stand for keys that some writers of the
collection omit.  Timestamps are abstract integers. -/

/-- A document of the videos collection.  The repository writes durations
inconsistently: the /videos creation route persists the VideoBase schema
field named duration, while the uploads route and the seed script persist
a key named duration_seconds; each is therefore optional here, none
meaning the key is absent from the document. -/
structure VideoDoc where
  uuid_id : String
  course_uuid : String
  topic_uuid : String
  duration : Option Int
  duration_seconds : Option Int
  order_index : Int
  is_preview : Bool
  deriving DecidableEq

/-- A document of the user_progress collection, as written by
upsert_video_progress. -/
structure ProgressDoc where
  student_uuid : String
  course_uuid : String
  topic_uuid : String
  video_uuid : String
  seconds_watched : Int
  last_position_sec : Int
  completed : Bool
  last_watched_at : Int
  deriving DecidableEq

/-- A document of the students collection.  The student routes persist
the StudentBase schema, whose display-name field is named student_name;
no writer in the repository ever writes a key named name, so that key is
kept as an Option that the creation path sets to none. -/
structure StudentDoc where
  uuid_id : String
  student_name : String
  department : String
  name : Option String
  deriving DecidableEq

/-- A document of the courses collection (the fields used here). -/
structure CourseDoc where
  uuid_id : String
  title : String
  deriving DecidableEq

/-- A document of the admins collection (the fields used here). -/
structure AdminDoc where
  uuid_id : String
  deriving DecidableEq

/-- A document of the topics collection (the fields used here). -/
structure TopicDoc where
  uuid_id : String
  course_uuid : String
  order_index : Int
  deriving DecidableEq

/-- A document of the user_courses (assignment) collection. -/
structure AssignmentDoc where
  uuid_id : String
  student_uuid : String
  course_uuid : String
  assigned_by_role : String
  assigned_by_uuid : String
  assigned_at : Int
  status : String
  deriving DecidableEq

/-- A document of the certificates collection, as written by
_auto_generate_certificate and the manual issue route. -/
structure CertificateDoc where
  certificate_id : String
  course_uuid : String
  student_uuid : String
  student_name : Option String
  course_title : Option String
  issued_at : Int
  code : String
  url : Option String
  certificate_file_key : Option String
  revoked : Bool
  revoked_at : Option Int
  notes : String
  completion_percentage : ℚ
  deriving DecidableEq

/-- A document of the departments collection. -/
structure DepartmentDoc where
  uuid_id : String
  name : String
  code : String
  description : Option String
  admin_uuid_id : String
  deriving DecidableEq

/-- The database state: one list per collection, in insertion order. -/
structure State where
  admins : List AdminDoc
  students : List StudentDoc
  courses : List CourseDoc
  topics : List TopicDoc
  videos : List VideoDoc
  user_courses : List AssignmentDoc
  user_progress : List ProgressDoc
  certificates : List CertificateDoc
  departments : List DepartmentDoc
  deriving DecidableEq

deriving instance DecidableEq for Except

/-- An HTTPException, carrying the HTTP status code and detail message. -/
structure HttpError where
  status : Nat
  detail : String
  deriving DecidableEq

/-- The identity dict produced by the get_current_identity dependency in
utils/dependencies.py. -/
structure Identity where
  session_id : String
  email_id : Option String
  role : String
  user_uuid : String
  deriving DecidableEq

/-! ## Mongo-style list helpers -/

/-- Mongo update_one: rewrite only the first document matching the
filter, leaving the rest unchanged. -/
def updateFirst {α : Type} : List α → (α → Bool) → (α → α) → List α
  | [], _, _ => []
  | a :: as, P, f => if P a then f a :: as else a :: updateFirst as P f

lemma updateFirst_of_find?_none {α : Type} (l : List α) (P : α → Bool)
    (f : α → α) (h : l.find? P = none) : updateFirst l P f = l := by
  induction l with
  | nil => rfl
  | cons a as ih =>
    by_cases hp : P a
    · rw [List.find?_cons_of_pos _ hp] at h
      exact absurd h (by simp)
    · rw [List.find?_cons_of_neg _ hp] at h
      simp [updateFirst, hp, ih h]

lemma countP_updateFirst {α : Type} (l : List α) (P Q : α → Bool)
    (f : α → α) (a : α) (h : l.find? P = some a) :
    (updateFirst l P f).countP Q + (if Q a then 1 else 0) =
      l.countP Q + (if Q (f a) then 1 else 0) := by
  induction l with
  | nil => exact absurd h (by simp)
  | cons b bs ih =>
    by_cases hp : P b
    · rw [List.find?_cons_of_pos _ hp] at h
      obtain rfl : b = a := by injection h
      simp only [updateFirst, hp, if_true, List.countP_cons]
      omega
    · rw [List.find?_cons_of_neg _ hp] at h
      have := ih h
      simp only [updateFirst, List.countP_cons, hp]
      simp only [Bool.false_eq_true, if_false, List.countP_cons]
      omega

lemma mem_updateFirst_const {α : Type} (l : List α) (P : α → Bool) (d : α)
    (h : (l.find? P).isSome) : d ∈ updateFirst l P (fun _ => d) := by
  induction l with
  | nil => simp [List.find?] at h
  | cons a as ih =>
    by_cases hp : P a
    · simp [updateFirst, hp]
    · rw [List.find?_cons_of_neg _ hp] at h
      simp [updateFirst, hp]
      exact Or.inr (ih h)

/-! ## Progress engine: upsert_video_progress (utils/progress.py) -/

/-- The filter used for the (student, video) progress row. -/
def progressKey (student_uuid video_uuid : String) (p : ProgressDoc) : Bool :=
  p.student_uuid == student_uuid && p.video_uuid == video_uuid

/-- Embedding of upsert_video_progress from utils/progress.py.  The video
is looked up by uuid (ValueError when absent); its duration is read from
the key duration_seconds with default 0 (the Python `or 0` also collapses
a stored null to 0).  A first row starts from the deltas capped at the
duration; a later call accumulates seconds and replaces the position.
Both are then clamped, the explicit completed flag (when not None)
overrides the clamp-derived one, and the row is upserted. -/
def upsert_video_progress (st : State) (student_uuid video_uuid : String)
    (last_position_sec delta_seconds : Int) (mark_completed : Option Bool)
    (now : Int) : Except String (State × ProgressDoc) :=
  match st.videos.find? (fun v => v.uuid_id == video_uuid) with
  | none => .error "Video not found"
  | some video =>
    let duration := video.duration_seconds.getD 0
    let existing := st.user_progress.find? (progressKey student_uuid video_uuid)
    let start :=
      match existing with
      | none => (min delta_seconds duration, min last_position_sec duration)
      | some e => (e.seconds_watched + delta_seconds, last_position_sec)
    let clamped := clamp_progress start.1 start.2 duration
    let completed :=
      match mark_completed with
      | some b => b
      | none => clamped.2.2
    let doc : ProgressDoc :=
      { student_uuid := student_uuid
        course_uuid := video.course_uuid
        topic_uuid := video.topic_uuid
        video_uuid := video_uuid
        seconds_watched := clamped.1
        last_position_sec := clamped.2.1
        completed := completed
        last_watched_at := now }
    let rows :=
      if (st.user_progress.find? (progressKey student_uuid video_uuid)).isSome then
        updateFirst st.user_progress (progressKey student_uuid video_uuid)
          (fun _ => doc)
      else
        st.user_progress ++ [doc]
    .ok ({ st with user_progress := rows }, doc)

/-- The duration-related part of the VideoBase schema (models/video.py):
the schema field is named duration, defaults to 0 and is validated
nonnegative; the schema has no duration_seconds field. -/
structure VideoCreatePayload where
  duration : Int
  is_preview : Bool
  deriving DecidableEq

/-- The video document persisted by create_video in routes/videos.py:
video_obj.model_dump() updated with uuid_id, course_uuid, topic_uuid and
order_index.  The dump contains the key duration and no key
duration_seconds. -/
def create_video_doc (payload : VideoCreatePayload)
    (uuid course topic : String) (order : Int) : VideoDoc :=
  { uuid_id := uuid
    course_uuid := course
    topic_uuid := topic
    duration := some payload.duration
    duration_seconds := none
    order_index := order
    is_preview := payload.is_preview }

lemma clamp_progress_of_nonpos (sw lp d : Int) (hd : d ≤ 0) :
    clamp_progress sw lp d = (0, 0, true) := by
  simp [clamp_progress, hd]

lemma clamp_progress_bounds (sw lp d : Int) (hd : 0 ≤ d) :
    0 ≤ (clamp_progress sw lp d).1 ∧ (clamp_progress sw lp d).1 ≤ d ∧
    0 ≤ (clamp_progress sw lp d).2.1 ∧ (clamp_progress sw lp d).2.1 ≤ d := by
  by_cases h : d ≤ 0
  · rw [clamp_progress_of_nonpos _ _ _ h]
    refine ⟨le_refl _, hd, le_refl _, hd⟩
  · simp only [clamp_progress, h, if_false]
    refine ⟨le_max_left _ _, ?_, le_max_left _ _, ?_⟩ <;> omega

/-- C10: every row written by upsert_video_progress has both
seconds_watched and last_position_sec in the interval from 0 to the
value of the video document key duration_seconds (taken as 0 when
absent); for a video document lacking duration_seconds the written row is
(0, 0) with completed true unless the caller passed an explicit
completed=false; and the /videos creation route builds documents whose
duration lives under the key duration with no duration_seconds key. -/
theorem C10_progress_row_invariant :
    (∀ st student vid lp delta mc now st2 doc video,
      st.videos.find? (fun v => v.uuid_id == vid) = some video →
      0 ≤ video.duration_seconds.getD 0 →
      upsert_video_progress st student vid lp delta mc now = .ok (st2, doc) →
      (0 ≤ doc.seconds_watched ∧
        doc.seconds_watched ≤ video.duration_seconds.getD 0 ∧
        0 ≤ doc.last_position_sec ∧
        doc.last_position_sec ≤ video.duration_seconds.getD 0 ∧
        doc ∈ st2.user_progress)) ∧
    (∀ st student vid lp delta mc now st2 doc video,
      st.videos.find? (fun v => v.uuid_id == vid) = some video →
      video.duration_seconds = none →
      upsert_video_progress st student vid lp delta mc now = .ok (st2, doc) →
      (doc.seconds_watched = 0 ∧ doc.last_position_sec = 0 ∧
        doc.completed = mc.getD true)) ∧
    (∀ payload uuid course topic order,
      (create_video_doc payload uuid course topic order).duration_seconds
          = none ∧
      (create_video_doc payload uuid course topic order).duration
          = some payload.duration) := by
  refine ⟨?_, ?_, fun _ _ _ _ _ => ⟨rfl, rfl⟩⟩
  · intro st student vid lp delta mc now st2 doc video hfind hD hok
    rw [upsert_video_progress, hfind] at hok
    simp only [Except.ok.injEq, Prod.mk.injEq] at hok
    obtain ⟨hst2, hdoc⟩ := hok
    subst hst2 hdoc
    have hb := clamp_progress_bounds
      (match st.user_progress.find? (progressKey student vid) with
        | none => (min delta (video.duration_seconds.getD 0),
            min lp (video.duration_seconds.getD 0))
        | some e => (e.seconds_watched + delta, lp)).1
      (match st.user_progress.find? (progressKey student vid) with
        | none => (min delta (video.duration_seconds.getD 0),
            min lp (video.duration_seconds.getD 0))
        | some e => (e.seconds_watched + delta, lp)).2
      (video.duration_seconds.getD 0) hD
    refine ⟨hb.1, hb.2.1, hb.2.2.1, hb.2.2.2, ?_⟩
    by_cases hex : (st.user_progress.find? (progressKey student vid)).isSome
    · simp only [hex, if_true]
      exact mem_updateFirst_const _ _ _ hex
    · simp only [hex, if_false]
      simp
  · intro st student vid lp delta mc now st2 doc video hfind hnone hok
    rw [upsert_video_progress, hfind] at hok
    simp only [Except.ok.injEq, Prod.mk.injEq] at hok
    obtain ⟨hst2, hdoc⟩ := hok
    subst hst2 hdoc
    have hz : video.duration_seconds.getD 0 = 0 := by rw [hnone]; rfl
    rw [hz]
    rw [clamp_progress_of_nonpos _ _ _ (le_refl 0)]
    refine ⟨rfl, rfl, ?_⟩
    cases mc <;> rfl

/-- Concrete state for the C10 witness: one video with
duration_seconds 100 and one created through the /videos route shape
with duration 300 and no duration_seconds key. -/
def wVideoA : VideoDoc :=
  { uuid_id := "v1", course_uuid := "c1", topic_uuid := "t1",
    duration := none, duration_seconds := some 100,
    order_index := 1, is_preview := false }

def wVideoB : VideoDoc := create_video_doc ⟨300, false⟩ "v2" "c1" "t1" 2

def wStateC10 : State :=
  { admins := [], students := [], courses := [], topics := [],
    videos := [wVideoA, wVideoB], user_courses := [], user_progress := [],
    certificates := [], departments := [] }

/-- The row and state produced by the first witness call. -/
def wDocC10a : ProgressDoc :=
  { student_uuid := "s1", course_uuid := "c1", topic_uuid := "t1",
    video_uuid := "v1", seconds_watched := 30, last_position_sec := 50,
    completed := false, last_watched_at := 7 }

def wStateC10a : State := { wStateC10 with user_progress := [wDocC10a] }

/-- The row and state produced by the second witness call. -/
def wDocC10b : ProgressDoc :=
  { student_uuid := "s1", course_uuid := "c1", topic_uuid := "t1",
    video_uuid := "v2", seconds_watched := 0, last_position_sec := 0,
    completed := true, last_watched_at := 7 }

def wStateC10b : State := { wStateC10 with user_progress := [wDocC10b] }

/-- Witness for C10: both universally quantified parts applied at
concrete inputs, verifying each hypothesis by evaluation. -/
theorem C10_progress_row_invariant_witness :
    (0 ≤ wDocC10a.seconds_watched ∧
      wDocC10a.seconds_watched ≤ wVideoA.duration_seconds.getD 0 ∧
      0 ≤ wDocC10a.last_position_sec ∧
      wDocC10a.last_position_sec ≤ wVideoA.duration_seconds.getD 0 ∧
      wDocC10a ∈ wStateC10a.user_progress) ∧
    (wDocC10b.seconds_watched = 0 ∧ wDocC10b.last_position_sec = 0 ∧
      wDocC10b.completed = (Option.none : Option Bool).getD true) :=
  ⟨C10_progress_row_invariant.1 wStateC10 "s1" "v1" 50 30 none 7 wStateC10a
      wDocC10a wVideoA (by decide) (by decide) (by decide),
    C10_progress_row_invariant.2.1 wStateC10 "s1" "v2" 50 30 none 7 wStateC10b
      wDocC10b wVideoB (by decide) (by decide) (by decide)⟩

/-! ## Certificate service (routes/certificates.py) -/

/-- The find_one filter for a certificate of a (student, course) pair. -/
def certPair (student_uuid course_uuid : String) (c : CertificateDoc) : Bool :=
  c.student_uuid == student_uuid && c.course_uuid == course_uuid

/-- The count_documents filter used by _all_videos_completed for the
completed progress rows of the pair. -/
def completedRow (student_uuid course_uuid : String) (p : ProgressDoc) : Bool :=
  p.student_uuid == student_uuid && p.course_uuid == course_uuid && p.completed

/-- Embedding of _all_videos_completed from routes/certificates.py:
counts the course videos; zero means (false, 0.0); otherwise counts the
completed progress rows of the pair and returns whether that count
reaches the video count, together with the percentage
(completed / total) * 100 as an exact rational. -/
def all_videos_completed (st : State) (student_uuid course_uuid : String) :
    Bool × ℚ :=
  let total := st.videos.countP (fun v => v.course_uuid == course_uuid)
  if total = 0 then (false, 0)
  else
    let completed := st.user_progress.countP (completedRow student_uuid course_uuid)
    (decide (total ≤ completed), mkRat ((completed : Int) * 100) total)

/-- Embedding of _auto_generate_certificate from routes/certificates.py.
cid and code stand for the two uuid4-derived identifiers, now for
datetime.utcnow().  The PDF rendering and upload is an external side
effect whose failure the handler swallows without rolling back the insert
(spec section 7); it is modelled as unavailable, leaving url and
certificate_file_key absent. -/
def auto_generate_certificate (st : State) (student_uuid course_uuid : String)
    (cid code : String) (now : Int) : State × Option CertificateDoc :=
  match st.certificates.find? (certPair student_uuid course_uuid) with
  | some existing => (st, some existing)
  | none =>
    let check := all_videos_completed st student_uuid course_uuid
    if !check.1 then (st, none)
    else
      let student := st.students.find? (fun s => s.uuid_id == student_uuid)
      let course := st.courses.find? (fun c => c.uuid_id == course_uuid)
      let student_name := student.bind (fun s => s.name)
      let course_title := course.map (fun c => c.title)
      let doc : CertificateDoc :=
        { certificate_id := cid
          course_uuid := course_uuid
          student_uuid := student_uuid
          student_name := student_name
          course_title := course_title
          issued_at := now
          code := code
          url := none
          certificate_file_key := none
          revoked := false
          revoked_at := none
          notes := "Auto-generated on course completion"
          completion_percentage := check.2 }
      ({ st with certificates := st.certificates ++ [doc] }, some doc)

/-- Python truthiness of an optional string: None and the empty string
are falsy. -/
def strTruthy (s : Option String) : Bool :=
  match s with
  | none => false
  | some str => !(str == "")

/-- Embedding of _enrich_certificate from routes/certificates.py:
back-fills a falsy student_name from the student document key name and a
falsy course_title from the course title, without persisting. -/
def enrich_certificate (st : State) (cert : CertificateDoc) : CertificateDoc :=
  let cert1 :=
    if strTruthy cert.student_name then cert
    else
      match st.students.find? (fun s => s.uuid_id == cert.student_uuid) with
      | some s => { cert with student_name := s.name }
      | none => cert
  if strTruthy cert1.course_title then cert1
  else
    match st.courses.find? (fun c => c.uuid_id == cert1.course_uuid) with
    | some c => { cert1 with course_title := some c.title }
    | none => cert1

/-- The student document persisted by the student creation route:
student_obj.model_dump() minus the password, plus uuid_id.  The
StudentBase schema has a student_name key and no key named name. -/
def mk_student_doc (student_name department : String) (uuid : String) :
    StudentDoc :=
  { uuid_id := uuid, student_name := student_name,
    department := department, name := none }

/-- Under the well-formedness of this database (each completed row of the
pair references a course video, no two such rows share a video, course
videos have distinct ids), the boolean of _all_videos_completed holds
exactly when the course has at least one video and every course video has
a completed progress row for the student. -/
lemma all_videos_completed_iff (st : State) (s c : String)
    (H1 : ∀ p ∈ st.user_progress, p.student_uuid = s → p.course_uuid = c →
      p.completed = true →
      ∃ v ∈ st.videos, v.course_uuid = c ∧ v.uuid_id = p.video_uuid)
    (H2 : (st.user_progress.filter (completedRow s c)).Pairwise
      (fun p q => p.video_uuid ≠ q.video_uuid))
    (H3 : (st.videos.filter (fun v => v.course_uuid == c)).Pairwise
      (fun v w => v.uuid_id ≠ w.uuid_id)) :
    (all_videos_completed st s c).1 = true ↔
      (st.videos.filter (fun v => v.course_uuid == c) ≠ [] ∧
        ∀ v ∈ st.videos.filter (fun v => v.course_uuid == c),
          ∃ p ∈ st.user_progress, p.student_uuid = s ∧ p.course_uuid = c ∧
            p.video_uuid = v.uuid_id ∧ p.completed = true) := by
  classical
  set V := st.videos.filter (fun v => v.course_uuid == c) with hV
  set P := st.user_progress.filter (completedRow s c) with hP
  have htot : st.videos.countP (fun v => v.course_uuid == c) = V.length := by
    rw [hV, List.countP_eq_length_filter]
  have hcmp : st.user_progress.countP (completedRow s c) = P.length := by
    rw [hP, List.countP_eq_length_filter]
  have hPmem : ∀ p, p ∈ P ↔ (p ∈ st.user_progress ∧ p.student_uuid = s ∧
      p.course_uuid = c ∧ p.completed = true) := by
    intro p
    rw [hP, List.mem_filter, completedRow]
    simp [Bool.and_eq_true, beq_iff_eq, and_assoc]
  have hVmem : ∀ v, v ∈ V ↔ (v ∈ st.videos ∧ v.course_uuid = c) := by
    intro v
    rw [hV, List.mem_filter]
    simp [beq_iff_eq]
  have hPU : (P.map (fun p => p.video_uuid)).Nodup :=
    List.pairwise_map.mpr H2
  have hVU : (V.map (fun v => v.uuid_id)).Nodup :=
    List.pairwise_map.mpr H3
  rw [all_videos_completed]
  by_cases h0 : st.videos.countP (fun v => v.course_uuid == c) = 0
  · rw [if_pos h0]
    have hVnil : V = [] := by
      rw [← List.length_eq_zero, ← htot]; exact h0
    simp [hVnil]
  · rw [if_neg h0]
    simp only [decide_eq_true_iff]
    have hVne : V ≠ [] := by
      intro hcon
      exact h0 (by rw [htot, hcon]; rfl)
    rw [htot, hcmp]
    constructor
    · intro hle
      refine ⟨hVne, ?_⟩
      intro v0 hv0
      by_contra hnc
      push_neg at hnc
      have hsub : ∀ u ∈ P.map (fun p => p.video_uuid),
          u ∈ (V.map (fun v => v.uuid_id)).erase v0.uuid_id := by
        intro u hu
        obtain ⟨p, hpP, rfl⟩ := List.mem_map.mp hu
        obtain ⟨hpmem, hps, hpc, hpd⟩ := (hPmem p).mp hpP
        have hne : p.video_uuid ≠ v0.uuid_id := by
          intro heq
          exact absurd hpd (by simpa [heq] using hnc p hpmem hps hpc)
        obtain ⟨v, hvmem, hvc, hvid⟩ := H1 p hpmem hps hpc hpd
        have hvV : v ∈ V := (hVmem v).mpr ⟨hvmem, hvc⟩
        have hmm : p.video_uuid ∈ V.map (fun v => v.uuid_id) :=
          List.mem_map.mpr ⟨v, hvV, hvid⟩
        exact (List.mem_erase_of_ne hne).mpr hmm
      have hv0u : v0.uuid_id ∈ V.map (fun v => v.uuid_id) :=
        List.mem_map.mpr ⟨v0, hv0, rfl⟩
      have hsp := (List.subperm_of_subset hPU hsub).length_le
      rw [List.length_erase_of_mem hv0u] at hsp
      have h1 : 1 ≤ V.length := List.length_pos.mpr hVne
      simp only [List.length_map] at hsp
      omega
    · rintro ⟨-, hcov⟩
      have hsub : ∀ u ∈ V.map (fun v => v.uuid_id),
          u ∈ P.map (fun p => p.video_uuid) := by
        intro u hu
        obtain ⟨v, hvV, rfl⟩ := List.mem_map.mp hu
        obtain ⟨p, hpmem, hps, hpc, hpv, hpd⟩ := hcov v hvV
        have hpP : p ∈ P := (hPmem p).mpr ⟨hpmem, hps, hpc, hpd⟩
        exact List.mem_map.mpr ⟨p, hpP, hpv⟩
      have hsp := (List.subperm_of_subset hVU hsub).length_le
      simp only [List.length_map] at hsp
      exact hsp

/-- C5: certificate auto-generation is idempotent per (student, course).
An existing certificate for the pair is returned unchanged with no write;
with no existing certificate the call creates one exactly when the course
has at least one video and every course video has a completed progress
row for the student (under the unique-index well-formedness hypotheses),
and otherwise writes nothing; and after a creating call, a second call is
a no-op returning the same record, leaving exactly one certificate
document for the pair. -/
theorem C5_certificate_idempotent :
    (∀ st s c cid code now e,
      st.certificates.find? (certPair s c) = some e →
      auto_generate_certificate st s c cid code now = (st, some e)) ∧
    (∀ st s c cid code now,
      st.certificates.find? (certPair s c) = none →
      (∀ p ∈ st.user_progress, p.student_uuid = s → p.course_uuid = c →
        p.completed = true →
        ∃ v ∈ st.videos, v.course_uuid = c ∧ v.uuid_id = p.video_uuid) →
      (st.user_progress.filter (completedRow s c)).Pairwise
        (fun p q => p.video_uuid ≠ q.video_uuid) →
      (st.videos.filter (fun v => v.course_uuid == c)).Pairwise
        (fun v w => v.uuid_id ≠ w.uuid_id) →
      (((auto_generate_certificate st s c cid code now).2.isSome = true ↔
        (st.videos.filter (fun v => v.course_uuid == c) ≠ [] ∧
          ∀ v ∈ st.videos.filter (fun v => v.course_uuid == c),
            ∃ p ∈ st.user_progress, p.student_uuid = s ∧ p.course_uuid = c ∧
              p.video_uuid = v.uuid_id ∧ p.completed = true)) ∧
        ((auto_generate_certificate st s c cid code now).2 = none →
          (auto_generate_certificate st s c cid code now).1 = st))) ∧
    (∀ st s c cid code now cid2 code2 now2 st1 cert,
      st.certificates.find? (certPair s c) = none →
      auto_generate_certificate st s c cid code now = (st1, some cert) →
      (auto_generate_certificate st1 s c cid2 code2 now2 = (st1, some cert) ∧
        st1.certificates.countP (certPair s c) = 1)) := by
  have hfst : ∀ st s c cid code now e,
      st.certificates.find? (certPair s c) = some e →
      auto_generate_certificate st s c cid code now = (st, some e) := by
    intro st s c cid code now e h
    simp only [auto_generate_certificate, h]
  refine ⟨hfst, ?_, ?_⟩
  · intro st s c cid code now hnone H1 H2 H3
    rw [← all_videos_completed_iff st s c H1 H2 H3]
    simp only [auto_generate_certificate, hnone]
    by_cases hch : (all_videos_completed st s c).1 = true
    · simp [hch]
    · rw [Bool.not_eq_true] at hch
      simp [hch]
  · intro st s c cid code now cid2 code2 now2 st1 cert hnone heq
    simp only [auto_generate_certificate, hnone] at heq
    by_cases hch : (all_videos_completed st s c).1 = true
    · rw [hch, Bool.not_true] at heq
      rw [if_neg (by simp : ¬ (false = true))] at heq
      rw [Prod.mk.injEq, Option.some.injEq] at heq
      obtain ⟨hst1, hcert⟩ := heq
      subst hst1
      subst hcert
      have hdocpair : ∀ doc : CertificateDoc, doc.student_uuid = s →
          doc.course_uuid = c → certPair s c doc = true := by
        intro doc h1 h2
        simp [certPair, h1, h2]
      have hzero : st.certificates.countP (certPair s c) = 0 := by
        rw [List.countP_eq_zero]
        exact fun a ha => List.find?_eq_none.mp hnone a ha
      constructor
      · apply hfst
        rw [List.find?_append, hnone]
        simp [certPair]
      · rw [List.countP_append, hzero]
        simp [certPair]
    · rw [Bool.not_eq_true] at hch
      simp [hch] at heq

/-- Concrete one-video course, fully completed, for the C5 witness and
the C6 counterexample state. -/
def wVideoC5 : VideoDoc :=
  { uuid_id := "v1", course_uuid := "c1", topic_uuid := "t1",
    duration := none, duration_seconds := some 100,
    order_index := 1, is_preview := false }

def wRowC5 : ProgressDoc :=
  { student_uuid := "s1", course_uuid := "c1", topic_uuid := "t1",
    video_uuid := "v1", seconds_watched := 100, last_position_sec := 100,
    completed := true, last_watched_at := 3 }

def wStateC5 : State :=
  { admins := [], students := [mk_student_doc "Alice" "CS" "s1"],
    courses := [⟨"c1", "Intro"⟩], topics := [], videos := [wVideoC5],
    user_courses := [], user_progress := [wRowC5], certificates := [],
    departments := [] }

/-- The certificate document the creating call persists on wStateC5. -/
def wCertC5 : CertificateDoc :=
  { certificate_id := "cert1", course_uuid := "c1", student_uuid := "s1",
    student_name := none, course_title := some "Intro", issued_at := 9,
    code := "CODE1", url := none, certificate_file_key := none,
    revoked := false, revoked_at := none,
    notes := "Auto-generated on course completion",
    completion_percentage := mkRat 100 1 }

def wStateC5b : State := { wStateC5 with certificates := [wCertC5] }

/-- Witness for C5: the no-op branch, the creation-condition branch and
the double-call branch, each applied at the concrete completed course. -/
theorem C5_certificate_idempotent_witness :
    (auto_generate_certificate wStateC5b "s1" "c1" "x2" "y2" 11 =
        (wStateC5b, some wCertC5)) ∧
    (((auto_generate_certificate wStateC5 "s1" "c1" "cert1" "CODE1" 9).2.isSome
          = true ↔
        (wStateC5.videos.filter (fun v => v.course_uuid == "c1") ≠ [] ∧
          ∀ v ∈ wStateC5.videos.filter (fun v => v.course_uuid == "c1"),
            ∃ p ∈ wStateC5.user_progress, p.student_uuid = "s1" ∧
              p.course_uuid = "c1" ∧ p.video_uuid = v.uuid_id ∧
              p.completed = true)) ∧
      ((auto_generate_certificate wStateC5 "s1" "c1" "cert1" "CODE1" 9).2 = none →
        (auto_generate_certificate wStateC5 "s1" "c1" "cert1" "CODE1" 9).1
            = wStateC5)) ∧
    (auto_generate_certificate wStateC5b "s1" "c1" "x2" "y2" 11 =
        (wStateC5b, some wCertC5) ∧
      wStateC5b.certificates.countP (certPair "s1" "c1") = 1) :=
  ⟨C5_certificate_idempotent.1 wStateC5b "s1" "c1" "x2" "y2" 11 wCertC5
      (by decide),
    C5_certificate_idempotent.2.1 wStateC5 "s1" "c1" "cert1" "CODE1" 9
      (by decide) (by decide) (by decide) (by decide),
    C5_certificate_idempotent.2.2 wStateC5 "s1" "c1" "cert1" "CODE1" 9
      "x2" "y2" 11 wStateC5b wCertC5 (by decide) (by decide)⟩

/-- C6 (code bug): certificate generation snapshots the student display
name by reading the document key name, which no writer of the students
collection ever sets (the student routes persist the StudentBase field
student_name), so for a route-created student named Alice the persisted
certificate carries student_name = none rather than the display name, and
enrichment reads the same key and does not repair it. -/
theorem C6_certificate_name_code_bug :
    (auto_generate_certificate wStateC5 "s1" "c1" "cert1" "CODE1" 9).2 =
        some wCertC5 ∧
    wCertC5.student_name = none ∧
    (enrich_certificate wStateC5b wCertC5).student_name = none ∧
    (mk_student_doc "Alice" "CS" "s1").student_name = "Alice" ∧
    ("Alice" : String) ≠ "" := by
  refine ⟨by decide, by decide, by decide, by decide, by decide⟩

/-! ## Progress routes (routes/progress.py) -/

/-- The ProgressUpdate request schema (models/progress.py): validation
requires last_position_sec at least 0 and delta_seconds_watched at least
0 (default 0); completed is optional. -/
structure ProgressUpdate where
  last_position_sec : Int
  delta_seconds_watched : Int
  completed : Option Bool
  deriving DecidableEq

/-- The VideoProgressResponse response schema. -/
structure VideoProgressResponse where
  video_uuid : String
  course_uuid : String
  topic_uuid : String
  seconds_watched : Int
  last_position_sec : Int
  completed : Bool
  deriving DecidableEq

/-- The _ensure_assignment filter: an active assignment of the pair. -/
def activeAssignment (student_uuid course_uuid : String)
    (a : AssignmentDoc) : Bool :=
  a.student_uuid == student_uuid && a.course_uuid == course_uuid &&
    a.status == "active"

/-- Embedding of update_video_progress (PUT /progress/video/id, also
reused verbatim by POST /progress/video/id/events).  The identity is the
resolved dependency; cid and code feed a possible certificate
generation; now stands for utcnow.  The Python guard on the certificate
trigger is `if payload.completed:`, which is truthy exactly for an
explicit True. -/
def update_video_progress (st : State) (identity : Identity)
    (video_uuid : String) (payload : ProgressUpdate) (cid code : String)
    (now : Int) : Except HttpError (State × VideoProgressResponse) :=
  if identity.role ≠ "student" then .error ⟨403, "Students only"⟩
  else
    match st.videos.find? (fun v => v.uuid_id == video_uuid) with
    | none => .error ⟨404, "Video not found"⟩
    | some video =>
      if (st.user_courses.find?
          (activeAssignment identity.user_uuid video.course_uuid)).isNone then
        .error ⟨403, "Course not assigned"⟩
      else
        match upsert_video_progress st identity.user_uuid video_uuid
            payload.last_position_sec payload.delta_seconds_watched
            payload.completed now with
        | .error e => .error ⟨500, e⟩
        | .ok (st1, doc) =>
          let st2 :=
            if payload.completed = some true then
              if (all_videos_completed st1 identity.user_uuid
                  video.course_uuid).1 then
                (auto_generate_certificate st1 identity.user_uuid
                  video.course_uuid cid code now).1
              else st1
            else st1
          .ok (st2,
            { video_uuid := video_uuid
              course_uuid := doc.course_uuid
              topic_uuid := doc.topic_uuid
              seconds_watched := doc.seconds_watched
              last_position_sec := doc.last_position_sec
              completed := doc.completed })

/-- Embedding of mark_video_complete (POST /progress/video/id/complete):
reads the duration from the video document key duration (default 0,
collapsing null), upserts it as both the seconds-watched delta and the
position with completed True, then runs the certificate-trigger check
unconditionally. -/
def mark_video_complete (st : State) (identity : Identity)
    (video_uuid : String) (cid code : String) (now : Int) :
    Except HttpError (State × VideoProgressResponse) :=
  if identity.role ≠ "student" then .error ⟨403, "Students only"⟩
  else
    match st.videos.find? (fun v => v.uuid_id == video_uuid) with
    | none => .error ⟨404, "Video not found"⟩
    | some video =>
      if (st.user_courses.find?
          (activeAssignment identity.user_uuid video.course_uuid)).isNone then
        .error ⟨403, "Course not assigned"⟩
      else
        let duration := video.duration.getD 0
        match upsert_video_progress st identity.user_uuid video_uuid
            duration duration (some true) now with
        | .error e => .error ⟨500, e⟩
        | .ok (st1, doc) =>
          let st2 :=
            if (all_videos_completed st1 identity.user_uuid
                video.course_uuid).1 then
              (auto_generate_certificate st1 identity.user_uuid
                video.course_uuid cid code now).1
            else st1
          .ok (st2,
            { video_uuid := video_uuid
              course_uuid := doc.course_uuid
              topic_uuid := doc.topic_uuid
              seconds_watched := doc.seconds_watched
              last_position_sec := doc.last_position_sec
              completed := doc.completed })

lemma upsert_ok_facts (st : State) (su vid : String) (lp delta : Int)
    (mc : Option Bool) (now : Int) (st1 : State) (doc : ProgressDoc)
    (video : VideoDoc)
    (hv : st.videos.find? (fun v => v.uuid_id == vid) = some video)
    (h : upsert_video_progress st su vid lp delta mc now = .ok (st1, doc)) :
    st1.videos = st.videos ∧ st1.certificates = st.certificates ∧
    st1.user_courses = st.user_courses ∧
    doc.course_uuid = video.course_uuid := by
  rw [upsert_video_progress, hv] at h
  simp only [Except.ok.injEq, Prod.mk.injEq] at h
  obtain ⟨h1, h2⟩ := h
  subst h1
  subst h2
  exact ⟨rfl, rfl, rfl, rfl⟩

lemma auto_generate_reads_eq (st : State) (s c cid code : String)
    (now : Int) :
    (auto_generate_certificate st s c cid code now).1.videos = st.videos ∧
    (auto_generate_certificate st s c cid code now).1.user_progress =
      st.user_progress := by
  rw [auto_generate_certificate]
  cases hfind : st.certificates.find? (certPair s c) with
  | some e => exact ⟨rfl, rfl⟩
  | none =>
    by_cases hch : (all_videos_completed st s c).1 = true <;>
      simp [hch]

lemma all_videos_completed_congr (st st2 : State) (s c : String)
    (hv : st2.videos = st.videos) (hp : st2.user_progress = st.user_progress) :
    all_videos_completed st2 s c = all_videos_completed st s c := by
  rw [all_videos_completed, all_videos_completed, hv, hp]

lemma auto_generate_pair_mem (st : State) (s c cid code : String) (now : Int)
    (h : (all_videos_completed st s c).1 = true) :
    ∃ cert ∈ (auto_generate_certificate st s c cid code now).1.certificates,
      cert.student_uuid = s ∧ cert.course_uuid = c := by
  rw [auto_generate_certificate]
  cases hfind : st.certificates.find? (certPair s c) with
  | some e =>
    refine ⟨e, List.mem_of_find?_eq_some hfind, ?_⟩
    have hp := List.find?_some hfind
    simpa [certPair, Bool.and_eq_true, beq_iff_eq] using hp
  | none =>
    simp only [h, Bool.not_true, Bool.false_eq_true, if_false]
    refine ⟨_, List.mem_append_right _ (List.mem_singleton_self _), rfl, rfl⟩

/-- C3 counterexample: a student with a one-video course sends a progress
update reaching the 95 percent threshold with no explicit completed flag;
the stored row has completed = true (clamp-derived), every video of the
course is then completed, yet the route writes no certificate. -/
def wAssignC2 : AssignmentDoc :=
  { uuid_id := "a1", student_uuid := "s1", course_uuid := "c1",
    assigned_by_role := "admin", assigned_by_uuid := "ad1",
    assigned_at := 0, status := "active" }

def wIdentityC2 : Identity :=
  { session_id := "sess", email_id := some "alice@example.com",
    role := "student", user_uuid := "s1" }

def wStateC3 : State :=
  { admins := [], students := [mk_student_doc "Alice" "CS" "s1"],
    courses := [⟨"c1", "Intro"⟩], topics := [], videos := [wVideoC5],
    user_courses := [wAssignC2], user_progress := [], certificates := [],
    departments := [] }

theorem C3_counterexample :
    (update_video_progress wStateC3 wIdentityC2 "v1"
        ⟨100, 100, none⟩ "cid1" "code1" 5).toOption.map
        (fun r => (r.2.completed, r.1.certificates.length,
          (all_videos_completed r.1 "s1" "c1").1)) =
      some (true, 0, true) := by decide

/-- C3 amended: the certificate trigger of PUT /progress/video/id (and
its events alias) runs only when the request payload carries an explicit
completed=true.  A successful update whose payload does not leaves the
certificates collection untouched, even when the stored row became
completed; when the payload does carry completed=true and afterwards
every course video is completed, a certificate for the (student, course)
pair is present in the resulting state. -/
theorem C3_amended :
    (∀ st identity vid payload cid code now st2 resp,
      update_video_progress st identity vid payload cid code now =
        .ok (st2, resp) →
      payload.completed ≠ some true →
      st2.certificates = st.certificates) ∧
    (∀ st identity vid payload cid code now st2 resp,
      update_video_progress st identity vid payload cid code now =
        .ok (st2, resp) →
      payload.completed = some true →
      (all_videos_completed st2 identity.user_uuid resp.course_uuid).1 = true →
      ∃ cert ∈ st2.certificates, cert.student_uuid = identity.user_uuid ∧
        cert.course_uuid = resp.course_uuid) := by
  constructor
  · intro st identity vid payload cid code now st2 resp heq hne
    by_cases hrole : identity.role ≠ "student"
    · rw [update_video_progress, if_pos hrole] at heq
      exact absurd heq (by simp)
    · cases hvid : st.videos.find? (fun v => v.uuid_id == vid) with
      | none =>
        rw [update_video_progress, if_neg hrole] at heq
        simp [hvid] at heq
      | some video =>
        by_cases hass : (st.user_courses.find?
            (activeAssignment identity.user_uuid video.course_uuid)).isNone
              = true
        · rw [update_video_progress, if_neg hrole] at heq
          simp [hvid, hass] at heq
        · rw [Bool.not_eq_true] at hass
          cases hups : upsert_video_progress st identity.user_uuid vid
              payload.last_position_sec payload.delta_seconds_watched
              payload.completed now with
          | error e =>
            rw [update_video_progress, if_neg hrole] at heq
            simp [hvid, hass, hups] at heq
          | ok pr =>
            obtain ⟨st1, doc⟩ := pr
            rw [update_video_progress, if_neg hrole] at heq
            simp only [hvid, hass, Bool.false_eq_true, if_false, hups] at heq
            rw [if_neg hne] at heq
            simp only [Except.ok.injEq, Prod.mk.injEq] at heq
            obtain ⟨hst2, -⟩ := heq
            subst hst2
            exact (upsert_ok_facts st identity.user_uuid vid
              payload.last_position_sec payload.delta_seconds_watched
              payload.completed now st1 doc video hvid hups).2.1
  · intro st identity vid payload cid code now st2 resp heq hpc hall
    by_cases hrole : identity.role ≠ "student"
    · rw [update_video_progress, if_pos hrole] at heq
      exact absurd heq (by simp)
    · cases hvid : st.videos.find? (fun v => v.uuid_id == vid) with
      | none =>
        rw [update_video_progress, if_neg hrole] at heq
        simp [hvid] at heq
      | some video =>
        by_cases hass : (st.user_courses.find?
            (activeAssignment identity.user_uuid video.course_uuid)).isNone
              = true
        · rw [update_video_progress, if_neg hrole] at heq
          simp [hvid, hass] at heq
        · rw [Bool.not_eq_true] at hass
          cases hups : upsert_video_progress st identity.user_uuid vid
              payload.last_position_sec payload.delta_seconds_watched
              payload.completed now with
          | error e =>
            rw [update_video_progress, if_neg hrole] at heq
            simp [hvid, hass, hups] at heq
          | ok pr =>
            obtain ⟨st1, doc⟩ := pr
            rw [update_video_progress, if_neg hrole] at heq
            simp only [hvid, hass, Bool.false_eq_true, if_false, hups] at heq
            rw [if_pos hpc] at heq
            simp only [Except.ok.injEq, Prod.mk.injEq] at heq
            obtain ⟨hst2, hresp⟩ := heq
            have hfacts := upsert_ok_facts st identity.user_uuid vid
              payload.last_position_sec payload.delta_seconds_watched
              payload.completed now st1 doc video hvid hups
            have hrc : resp.course_uuid = video.course_uuid := by
              rw [← hresp]
              exact hfacts.2.2.2
            by_cases hch : (all_videos_completed st1 identity.user_uuid
                video.course_uuid).1 = true
            · rw [if_pos hch] at hst2
              subst hst2
              rw [hrc]
              exact auto_generate_pair_mem st1 identity.user_uuid
                video.course_uuid cid code now hch
            · rw [if_neg hch] at hst2
              subst hst2
              rw [hrc] at hall
              exact absurd hall hch

/-- The state and response after the explicit completed=true witness
call for C3. -/
def wRowC3 : ProgressDoc :=
  { student_uuid := "s1", course_uuid := "c1", topic_uuid := "t1",
    video_uuid := "v1", seconds_watched := 100, last_position_sec := 100,
    completed := true, last_watched_at := 5 }

def wRespC3 : VideoProgressResponse :=
  { video_uuid := "v1", course_uuid := "c1", topic_uuid := "t1",
    seconds_watched := 100, last_position_sec := 100, completed := true }

def wCertC3 : CertificateDoc :=
  { certificate_id := "cid1", course_uuid := "c1", student_uuid := "s1",
    student_name := none, course_title := some "Intro", issued_at := 5,
    code := "code1", url := none, certificate_file_key := none,
    revoked := false, revoked_at := none,
    notes := "Auto-generated on course completion",
    completion_percentage := mkRat 100 1 }

def wStateC3none : State := { wStateC3 with user_progress := [wRowC3] }

def wStateC3true : State :=
  { wStateC3 with user_progress := [wRowC3], certificates := [wCertC3] }

/-- Witness for C3 amended: the no-flag branch leaves certificates
unchanged; the explicit completed=true branch yields a certificate for
the pair. -/
theorem C3_amended_witness :
    (wStateC3none.certificates = wStateC3.certificates) ∧
    (∃ cert ∈ wStateC3true.certificates, cert.student_uuid =
        wIdentityC2.user_uuid ∧ cert.course_uuid = wRespC3.course_uuid) :=
  ⟨C3_amended.1 wStateC3 wIdentityC2 "v1" ⟨100, 100, none⟩ "cid1" "code1" 5
      wStateC3none wRespC3 (by decide) (by decide),
    C3_amended.2 wStateC3 wIdentityC2 "v1" ⟨100, 100, some true⟩ "cid1"
      "code1" 5 wStateC3true wRespC3 (by decide) (by decide) (by decide)⟩

/-- State for the C2 code-bug theorem: the video document was created by
the /videos route, so its duration 300 sits under the key duration and
there is no duration_seconds key. -/
def wVideoC2 : VideoDoc := create_video_doc ⟨300, false⟩ "v1" "c1" "t1" 1

def wStateC2 : State :=
  { admins := [], students := [], courses := [⟨"c1", "Intro"⟩],
    topics := [], videos := [wVideoC2], user_courses := [wAssignC2],
    user_progress := [], certificates := [], departments := [] }

/-- C2 (code bug): POST /progress/video/id/complete reads the duration
300 from the video key duration, but the progress engine clamps against
the key duration_seconds (absent, hence 0), so the stored row is
(seconds_watched 0, last_position 0, completed true) instead of
(300, 300, true) as the specification describes. -/
theorem C2_complete_route_code_bug :
    wVideoC2.duration = some 300 ∧
    (mark_video_complete wStateC2 wIdentityC2 "v1" "cid2" "code2" 5).toOption.map
        (fun r => r.2) =
      some { video_uuid := "v1", course_uuid := "c1", topic_uuid := "t1",
             seconds_watched := 0, last_position_sec := 0,
             completed := true } ∧
    ((0 : Int) ≠ 300) := by
  refine ⟨by decide, by decide, by decide⟩

/-! ## Department management service (routes/departments.py)

Unlike every other mutating route group, the three department mutation
handlers declare no identity dependency in the source, so request
authentication is never consulted.  Each embedding still takes the
request's Authorization header as a parameter, so that the gating claim
can be stated; faithfully to the source, the handlers ignore it. -/

/-- The DepartmentCreate schema (models/department.py). -/
structure DepartmentCreate where
  name : String
  code : String
  description : Option String
  admin_uuid_id : String
  deriving DecidableEq

/-- The DepartmentUpdate schema: all fields optional, none meaning the
field was not supplied (model_dump with exclude_unset). -/
structure DepartmentUpdate where
  name : Option String
  code : Option String
  description : Option String
  admin_uuid_id : Option String
  deriving DecidableEq

/-- Embedding of create_department (POST /departments): validates the
referenced admin, rejects duplicate code then duplicate name, inserts the
dumped payload with a fresh uuid_id. -/
def create_department (st : State) (authHeader : Option String)
    (department : DepartmentCreate) (newId : String) :
    Except HttpError (State × DepartmentDoc) :=
  if (st.admins.find? (fun a => a.uuid_id == department.admin_uuid_id)).isNone
    then .error ⟨400, "Admin does not exist"⟩
  else if (st.departments.find? (fun d => d.code == department.code)).isSome
    then .error ⟨400, "Department code already exists"⟩
  else if (st.departments.find? (fun d => d.name == department.name)).isSome
    then .error ⟨400, "Department name already exists"⟩
  else
    let doc : DepartmentDoc :=
      { uuid_id := newId
        name := department.name
        code := department.code
        description := department.description
        admin_uuid_id := department.admin_uuid_id }
    .ok ({ st with departments := st.departments ++ [doc] }, doc)

/-- Embedding of update_department (PUT /departments/uuid): 404 when
unknown; validates a supplied admin reference and code/name collisions
against other departments; applies the supplied fields to the first
matching document and returns the refetched record. -/
def update_department (st : State) (authHeader : Option String)
    (uuid_id : String) (upd : DepartmentUpdate) :
    Except HttpError (State × DepartmentDoc) :=
  match st.departments.find? (fun d => d.uuid_id == uuid_id) with
  | none => .error ⟨404, "Department not found"⟩
  | some _ =>
    let adminBad :=
      match upd.admin_uuid_id with
      | some aid =>
        (st.admins.find? (fun (a : AdminDoc) => a.uuid_id == aid)).isNone
      | none => false
    if adminBad then .error ⟨400, "Admin does not exist"⟩
    else
      let codeBad :=
        match upd.code with
        | some cd => (st.departments.find? (fun (d : DepartmentDoc) =>
            d.code == cd && !(d.uuid_id == uuid_id))).isSome
        | none => false
      if codeBad then .error ⟨400, "Department code already exists"⟩
      else
        let nameBad :=
          match upd.name with
          | some nm => (st.departments.find? (fun (d : DepartmentDoc) =>
              d.name == nm && !(d.uuid_id == uuid_id))).isSome
          | none => false
        if nameBad then .error ⟨400, "Department name already exists"⟩
        else
          let applyUpd := fun (d : DepartmentDoc) =>
            { d with
              name := upd.name.getD d.name
              code := upd.code.getD d.code
              description :=
                if upd.description.isSome then upd.description
                else d.description
              admin_uuid_id := upd.admin_uuid_id.getD d.admin_uuid_id }
          let newDeps :=
            if upd.name.isSome || upd.code.isSome || upd.description.isSome ||
                upd.admin_uuid_id.isSome then
              updateFirst st.departments (fun d => d.uuid_id == uuid_id)
                applyUpd
            else st.departments
          match newDeps.find? (fun d => d.uuid_id == uuid_id) with
          | some docAfter => .ok ({ st with departments := newDeps }, docAfter)
          | none => .error ⟨500, "Department lost"⟩

/-- Embedding of delete_department (DELETE /departments/uuid): blocked
when any student document's department equals this department's name
(the students collection requires the department key, so the exists-count
is the collection size); then delete_one, with 404 when nothing was
deleted. -/
def delete_department (st : State) (authHeader : Option String)
    (uuid_id : String) : Except HttpError State :=
  let blocked :=
    if st.students.length > 0 then
      match st.departments.find? (fun d => d.uuid_id == uuid_id) with
      | some dept =>
        st.students.countP (fun (s : StudentDoc) => s.department == dept.name) > 0
      | none => false
    else false
  if blocked then
    .error ⟨400, "Cannot delete department with students"⟩
  else if (st.departments.find? (fun d => d.uuid_id == uuid_id)).isNone then
    .error ⟨404, "Department not found"⟩
  else
    .ok { st with
      departments := st.departments.eraseP (fun d => d.uuid_id == uuid_id) }

def wStateC4 : State :=
  { admins := [⟨"ad1"⟩], students := [], courses := [], topics := [],
    videos := [], user_courses := [], user_progress := [],
    certificates := [], departments := [] }

def wDeptC4 : DepartmentDoc :=
  { uuid_id := "d1", name := "CS", code := "CS01", description := none,
    admin_uuid_id := "ad1" }

/-- C4 counterexample: a POST /departments request with no Authorization
header at all is processed and inserts a department — it is not rejected
with an unauthenticated error before the database mutation, because the
handler declares no identity dependency. -/
theorem C4_counterexample :
    create_department wStateC4 none ⟨"CS", "CS01", none, "ad1"⟩ "d1" =
      .ok ({ wStateC4 with departments := [wDeptC4] }, wDeptC4) ∧
    wStateC4.departments.length = 0 := by
  refine ⟨by decide, by decide⟩

/-- C4 amended: the three department mutation endpoints perform no
authentication at all: each handler's outcome is independent of the
Authorization header, and a tokenless create request that passes the
handler's own validation performs the database insert. -/
theorem C4_amended :
    (∀ st h1 h2 payload newId,
      create_department st h1 payload newId =
        create_department st h2 payload newId) ∧
    (∀ st h1 h2 uuid upd,
      update_department st h1 uuid upd = update_department st h2 uuid upd) ∧
    (∀ st h1 h2 uuid,
      delete_department st h1 uuid = delete_department st h2 uuid) ∧
    (∀ st payload newId st2 doc,
      create_department st none payload newId = .ok (st2, doc) →
      st2.departments = st.departments ++ [doc]) := by
  refine ⟨fun _ _ _ _ _ => rfl, fun _ _ _ _ _ => rfl, fun _ _ _ _ => rfl, ?_⟩
  intro st payload newId st2 doc heq
  rw [create_department] at heq
  by_cases h1 : (st.admins.find?
      (fun a => a.uuid_id == payload.admin_uuid_id)).isNone = true
  · rw [if_pos h1] at heq
    exact absurd heq (by simp)
  · rw [if_neg h1] at heq
    by_cases h2 : (st.departments.find?
        (fun d => d.code == payload.code)).isSome = true
    · rw [if_pos h2] at heq
      exact absurd heq (by simp)
    · rw [if_neg h2] at heq
      by_cases h3 : (st.departments.find?
          (fun d => d.name == payload.name)).isSome = true
      · rw [if_pos h3] at heq
        exact absurd heq (by simp)
      · rw [if_neg h3] at heq
        simp only [Except.ok.injEq, Prod.mk.injEq] at heq
        obtain ⟨hst2, hdoc⟩ := heq
        subst hst2
        subst hdoc
        rfl

/-- Witness for C4 amended: the insert clause applied at the concrete
tokenless request of the counterexample. -/
theorem C4_amended_witness :
    ({ wStateC4 with departments := [wDeptC4] } : State).departments =
      wStateC4.departments ++ [wDeptC4] :=
  C4_amended.2.2.2 wStateC4 ⟨"CS", "CS01", none, "ad1"⟩ "d1"
    { wStateC4 with departments := [wDeptC4] } wDeptC4 (by decide)

/-! ## Assignment service (routes/assignments.py) -/

/-- The find_one filter for the (student, course) assignment pair. -/
def assignPair (sid c : String) (a : AssignmentDoc) : Bool :=
  a.student_uuid == sid && a.course_uuid == c

/-- The AssignRequest schema. -/
structure AssignRequest where
  course_uuid : String
  student_uuid : Option String
  student_uuids : Option (List String)
  deriving DecidableEq

/-- The per-student body of the assign_course loop: find the pair
document; a revoked one is reactivated in place — status active, fresh
assigned_at and assigner stamps, and the existing uuid_id kept (a fresh
one only when the stored id is falsy); an active one is returned
unchanged; otherwise a fresh document is inserted.
This is the reactivation update dict of the source loop. -/
def reactivate (identity : Identity) (freshId : String) (now : Int)
    (existing : AssignmentDoc) : AssignmentDoc :=
  { existing with
    status := "active"
    assigned_at := now
    assigned_by_role := identity.role
    assigned_by_uuid := identity.user_uuid
    uuid_id := if existing.uuid_id == "" then freshId else existing.uuid_id }

/-- The fresh assignment document inserted when no pair document exists. -/
def new_assignment (identity : Identity) (course_uuid sid freshId : String)
    (now : Int) : AssignmentDoc :=
  { uuid_id := freshId, student_uuid := sid, course_uuid := course_uuid,
    assigned_by_role := identity.role,
    assigned_by_uuid := identity.user_uuid,
    assigned_at := now, status := "active" }

def assign_one (st : State) (identity : Identity) (course_uuid sid : String)
    (freshId : String) (now : Int) : State × AssignmentDoc :=
  match st.user_courses.find? (assignPair sid course_uuid) with
  | some existing =>
    if existing.status == "revoked" then
      ({ st with user_courses := (updateFirst st.user_courses
          (assignPair sid course_uuid)
          (fun _ => reactivate identity freshId now existing)) },
        reactivate identity freshId now existing)
    else (st, existing)
  | none =>
    ({ st with user_courses :=
        st.user_courses ++ [new_assignment identity course_uuid sid freshId now] },
      new_assignment identity course_uuid sid freshId now)

/-- One fold step of the assign_course loop, threading the state and
accumulating one response entry per student. -/
def assign_step (identity : Identity) (course_uuid : String) (now : Int)
    (acc : State × List AssignmentDoc) (p : String × String) :
    State × List AssignmentDoc :=
  let r := assign_one acc.1 identity course_uuid p.1 p.2 now
  (r.1, acc.2 ++ [r.2])

/-- Embedding of assign_course (POST /assignments): 404 for an unknown
course; a truthy student_uuid takes precedence over student_uuids, an
empty selection is a validation error; every listed student must exist;
then the upsert-or-reactivate loop runs per student.  freshIds supplies
one uuid4 per student. -/
def assign_course (st : State) (identity : Identity)
    (payload : AssignRequest) (freshIds : List String) (now : Int) :
    Except HttpError (State × List AssignmentDoc) :=
  if (st.courses.find? (fun c => c.uuid_id == payload.course_uuid)).isNone
    then .error ⟨404, "Course not found"⟩
  else
    let studentsOpt :=
      if strTruthy payload.student_uuid then
        payload.student_uuid.map (fun s => [s])
      else
        match payload.student_uuids with
        | some l => if l.isEmpty then none else some l
        | none => none
    match studentsOpt with
    | none => .error ⟨400, "Provide student_uuid or student_uuids"⟩
    | some students =>
      if st.students.countP (fun s => students.contains s.uuid_id) ≠
          students.length then
        .error ⟨400, "One or more students not found"⟩
      else
        .ok ((students.zip freshIds).foldl
          (assign_step identity payload.course_uuid now) (st, []))

/-- Embedding of revoke_assignment (DELETE /assignments/id): 404 when
the assignment uuid is unknown, else sets status revoked on the first
matching document. -/
def revoke_assignment (st : State) (assignment_id : String) :
    Except HttpError State :=
  if (st.user_courses.find?
      (fun a => a.uuid_id == assignment_id)).isNone then
    .error ⟨404, "Assignment not found"⟩
  else
    .ok { st with user_courses := (updateFirst st.user_courses
      (fun a => a.uuid_id == assignment_id)
      (fun a => { a with status := "revoked" })) }

lemma assignPair_fields {sid c : String} {a : AssignmentDoc}
    (h : assignPair sid c a = true) :
    a.student_uuid = sid ∧ a.course_uuid = c := by
  rw [assignPair, Bool.and_eq_true, beq_iff_eq, beq_iff_eq] at h
  exact h

/-- assign_one for one student changes the pair count of that student
from 0 to 1 and otherwise preserves it, and never touches the pair count
of a different student. -/
lemma assign_one_pairCount (st : State) (idn : Identity)
    (c0 sid2 fid : String) (now : Int) (sid : String) :
    (assign_one st idn c0 sid2 fid now).1.user_courses.countP
        (assignPair sid c0) =
      (if sid2 = sid ∧
          st.user_courses.countP (assignPair sid c0) = 0 then 1
        else st.user_courses.countP (assignPair sid c0)) := by
  rw [assign_one]
  cases hfind : st.user_courses.find? (assignPair sid2 c0) with
  | none =>
    have hzero2 : st.user_courses.countP (assignPair sid2 c0) = 0 := by
      rw [List.countP_eq_zero]
      exact fun a ha => List.find?_eq_none.mp hfind a ha
    by_cases hs : sid2 = sid
    · subst hs
      rw [if_pos ⟨rfl, hzero2⟩]
      simp only [List.countP_append, hzero2, List.countP_cons,
        List.countP_nil]
      simp [assignPair, new_assignment]
    · rw [if_neg (fun hcon => hs hcon.1)]
      have hdoc : assignPair sid c0 (new_assignment idn c0 sid2 fid now)
          = false := by
        simp only [assignPair, new_assignment, Bool.and_eq_false_iff]
        left
        rw [beq_eq_false_iff_ne]
        exact hs
      simp only [List.countP_append, List.countP_cons, List.countP_nil,
        hdoc]
      simp
  | some e =>
    simp only []
    have hpos : 0 < st.user_courses.countP (assignPair sid2 c0) :=
      List.countP_pos.mpr
        ⟨e, List.mem_of_find?_eq_some hfind, List.find?_some hfind⟩
    have hne : ¬ (sid2 = sid ∧
        st.user_courses.countP (assignPair sid c0) = 0) := by
      rintro ⟨rfl, hz⟩
      omega
    rw [if_neg hne]
    by_cases hrev : (e.status == "revoked") = true
    · rw [if_pos hrev]
      have hupd := countP_updateFirst st.user_courses (assignPair sid2 c0)
        (assignPair sid c0) (fun _ => reactivate idn fid now e) e hfind
      have hsame : assignPair sid c0 (reactivate idn fid now e) =
          assignPair sid c0 e := by
        simp [assignPair, reactivate]
      rw [hsame] at hupd
      simp only []
      omega
    · rw [if_neg hrev]

lemma assign_fold_pairCount_le (idn : Identity) (c0 : String) (now : Int)
    (pairs : List (String × String)) (sid : String) :
    ∀ st0 docs, st0.user_courses.countP (assignPair sid c0) ≤ 1 →
    ((pairs.foldl (assign_step idn c0 now) (st0, docs)).1).user_courses.countP
      (assignPair sid c0) ≤ 1 := by
  induction pairs with
  | nil => intro st0 docs h; exact h
  | cons p rest ih =>
    intro st0 docs h
    rw [List.foldl_cons]
    apply ih
    simp only [assign_step]
    rw [assign_one_pairCount]
    by_cases hc : p.1 = sid ∧
        st0.user_courses.countP (assignPair sid c0) = 0
    · rw [if_pos hc]
    · rw [if_neg hc]; exact h

lemma assign_fold_pairCount_one (idn : Identity) (c0 : String) (now : Int)
    (pairs : List (String × String)) (sid : String) :
    ∀ st0 docs, st0.user_courses.countP (assignPair sid c0) = 1 →
    ((pairs.foldl (assign_step idn c0 now) (st0, docs)).1).user_courses.countP
      (assignPair sid c0) = 1 := by
  induction pairs with
  | nil => intro st0 docs h; exact h
  | cons p rest ih =>
    intro st0 docs h
    rw [List.foldl_cons]
    apply ih
    simp only [assign_step]
    rw [assign_one_pairCount]
    rw [h]
    simp

lemma assign_fold_pairCount_hit (idn : Identity) (c0 : String) (now : Int)
    (pairs : List (String × String)) (sid : String) :
    ∀ st0 docs, st0.user_courses.countP (assignPair sid c0) ≤ 1 →
    sid ∈ pairs.map Prod.fst →
    ((pairs.foldl (assign_step idn c0 now) (st0, docs)).1).user_courses.countP
      (assignPair sid c0) = 1 := by
  induction pairs with
  | nil => intro st0 docs h hmem; simp at hmem
  | cons p rest ih =>
    intro st0 docs h hmem
    rw [List.map_cons, List.mem_cons] at hmem
    rw [List.foldl_cons]
    by_cases hs : p.1 = sid
    · have hone : ((assign_step idn c0 now (st0, docs) p).1).user_courses.countP
          (assignPair sid c0) = 1 := by
        simp only [assign_step]
        rw [assign_one_pairCount]
        by_cases hz : st0.user_courses.countP (assignPair sid c0) = 0
        · rw [if_pos ⟨hs, hz⟩]
        · rw [if_neg (by intro hcon; exact hz hcon.2)]
          omega
      exact assign_fold_pairCount_one idn c0 now rest sid _ _ hone
    · have hmem2 : sid ∈ rest.map Prod.fst := by
        rcases hmem with hmem | hmem
        · exact absurd hmem.symm hs
        · exact hmem
      apply ih
      · simp only [assign_step]
        rw [assign_one_pairCount]
        rw [if_neg (by intro hcon; exact hs hcon.1)]
        exact h
      · exact hmem2

/-- C7 counterexample: a revoked assignment with id A is re-assigned with
the fresh id B available, yet the resulting active document still carries
id A — the endpoint reuses the existing assignment id instead of
stamping a fresh one (it does stamp a fresh assigned_at). -/
def wRevokedC7 : AssignmentDoc :=
  { uuid_id := "A", student_uuid := "s1", course_uuid := "c1",
    assigned_by_role := "admin", assigned_by_uuid := "ad1",
    assigned_at := 0, status := "revoked" }

def wStateC7 : State :=
  { admins := [], students := [mk_student_doc "Bob" "CS" "s1"],
    courses := [⟨"c1", "Intro"⟩], topics := [], videos := [],
    user_courses := [wRevokedC7], user_progress := [], certificates := [],
    departments := [] }

def wIdentityC7 : Identity :=
  { session_id := "sess2", email_id := none, role := "admin",
    user_uuid := "ad1" }

theorem C7_counterexample :
    (assign_course wStateC7 wIdentityC7 ⟨"c1", some "s1", none⟩
        ["B"] 5).toOption.map
      (fun r => r.2.map (fun d => (d.uuid_id, d.status, d.assigned_at))) =
      some [("A", "active", 5)] ∧
    ("A" : String) ≠ "B" := by
  refine ⟨by decide, by decide⟩

/-- C7 amended: the assignment-create endpoint never produces a second
document for a (student, course) pair.  Reactivating a revoked
assignment reuses that same document — status active, fresh assigned_at,
and the existing assignment id kept (a fresh one only when the stored id
is falsy); an active assignment is returned unchanged; a missing pair is
inserted with the fresh id; the pair count stays at most 1 under any
create call, equals exactly 1 after a single-student create, and
revocation never changes any pair count. -/
theorem C7_amended :
    (∀ st idn c0 sid fid now e,
      st.user_courses.find? (assignPair sid c0) = some e →
      e.status = "revoked" → e.uuid_id ≠ "" →
      ((assign_one st idn c0 sid fid now).2.uuid_id = e.uuid_id ∧
        (assign_one st idn c0 sid fid now).2.status = "active" ∧
        (assign_one st idn c0 sid fid now).2.assigned_at = now)) ∧
    (∀ st idn c0 sid fid now e,
      st.user_courses.find? (assignPair sid c0) = some e →
      e.status ≠ "revoked" →
      assign_one st idn c0 sid fid now = (st, e)) ∧
    (∀ st idn c0 sid fid now,
      st.user_courses.find? (assignPair sid c0) = none →
      ((assign_one st idn c0 sid fid now).2.uuid_id = fid ∧
        (assign_one st idn c0 sid fid now).2.status = "active" ∧
        (assign_one st idn c0 sid fid now).1.user_courses.countP
          (assignPair sid c0) = 1)) ∧
    (∀ st idn payload freshIds now st2 docs sid,
      assign_course st idn payload freshIds now = .ok (st2, docs) →
      st.user_courses.countP (assignPair sid payload.course_uuid) ≤ 1 →
      st2.user_courses.countP (assignPair sid payload.course_uuid) ≤ 1) ∧
    (∀ st idn c0 sid fid rest now st2 docs,
      assign_course st idn ⟨c0, some sid, none⟩ (fid :: rest) now =
        .ok (st2, docs) →
      sid ≠ "" →
      st.user_courses.countP (assignPair sid c0) ≤ 1 →
      st2.user_courses.countP (assignPair sid c0) = 1) ∧
    (∀ st aid st2 sid c0,
      revoke_assignment st aid = .ok st2 →
      st2.user_courses.countP (assignPair sid c0) =
        st.user_courses.countP (assignPair sid c0)) := by
  refine ⟨?_, ?_, ?_, ?_, ?_, ?_⟩
  · intro st idn c0 sid fid now e hfind hrev hid
    rw [assign_one, hfind]
    have hrev2 : (e.status == "revoked") = true := by
      rw [beq_iff_eq]; exact hrev
    have hid2 : (e.uuid_id == "") = false := by
      rw [beq_eq_false_iff_ne]; exact hid
    simp [reactivate, hrev2, hid2]
  · intro st idn c0 sid fid now e hfind hrev
    rw [assign_one, hfind]
    have hrev2 : (e.status == "revoked") = false := by
      rw [beq_eq_false_iff_ne]; exact hrev
    simp [hrev2]
  · intro st idn c0 sid fid now hfind
    rw [assign_one, hfind]
    have hzero : st.user_courses.countP (assignPair sid c0) = 0 := by
      rw [List.countP_eq_zero]
      exact fun a ha => List.find?_eq_none.mp hfind a ha
    simp [List.countP_append, hzero, assignPair, new_assignment]
  · intro st idn payload freshIds now st2 docs sid heq hle
    rw [assign_course] at heq
    by_cases h1 : (st.courses.find?
        (fun c => c.uuid_id == payload.course_uuid)).isNone = true
    · rw [if_pos h1] at heq
      exact absurd heq (by simp)
    · rw [if_neg h1] at heq
      cases hstu : (if strTruthy payload.student_uuid then
          payload.student_uuid.map (fun s => [s])
        else
          match payload.student_uuids with
          | some l => if l.isEmpty then none else some l
          | none => none) with
      | none =>
        rw [hstu] at heq
        exact absurd heq (by simp)
      | some students =>
        rw [hstu] at heq
        simp only [] at heq
        by_cases h2 : st.students.countP
            (fun s => students.contains s.uuid_id) ≠ students.length
        · rw [if_pos h2] at heq
          exact absurd heq (by simp)
        · rw [if_neg h2] at heq
          simp only [Except.ok.injEq] at heq
          have hst2 := congrArg Prod.fst heq
          simp only [] at hst2
          rw [← hst2]
          exact assign_fold_pairCount_le idn payload.course_uuid now
            (students.zip freshIds) sid st [] hle
  · intro st idn c0 sid fid rest now st2 docs heq hsid hle
    rw [assign_course] at heq
    by_cases h1 : (st.courses.find? (fun c => c.uuid_id == c0)).isNone = true
    · rw [if_pos h1] at heq
      exact absurd heq (by simp)
    · rw [if_neg h1] at heq
      have htr : strTruthy (some sid) = true := by
        rw [strTruthy]
        simp only [Bool.not_eq_eq_eq_not, Bool.not_false, beq_eq_false_iff_ne]
        simpa using hsid
      simp only [htr, if_true, Option.map] at heq
      by_cases h2 : st.students.countP
          (fun s => [sid].contains s.uuid_id) ≠ [sid].length
      · rw [if_pos h2] at heq
        exact absurd heq (by simp)
      · rw [if_neg h2] at heq
        simp only [Except.ok.injEq] at heq
        have hst2 := congrArg Prod.fst heq
        simp only [] at hst2
        rw [← hst2]
        exact assign_fold_pairCount_hit idn c0 now ([sid].zip (fid :: rest))
          sid st [] hle (by simp)
  · intro st aid st2 sid c0 heq
    rw [revoke_assignment] at heq
    cases hfind : st.user_courses.find? (fun a => a.uuid_id == aid) with
    | none =>
      rw [hfind] at heq
      simp at heq
    | some e =>
      rw [hfind] at heq
      simp only [Option.isNone_some, Bool.false_eq_true, if_false,
        Except.ok.injEq] at heq
      have hupd := countP_updateFirst st.user_courses
        (fun a => a.uuid_id == aid) (assignPair sid c0)
        (fun a => { a with status := "revoked" }) e hfind
      have hsame : assignPair sid c0 ({ e with status := "revoked" }) =
          assignPair sid c0 e := by
        simp [assignPair]
      rw [hsame] at hupd
      have hgoal : (updateFirst st.user_courses
          (fun a => a.uuid_id == aid)
          (fun a => { a with status := "revoked" })).countP
          (assignPair sid c0) =
          st.user_courses.countP (assignPair sid c0) := by omega
      rw [← heq]
      exact hgoal

/-- The reactivated document and the states of the C7 witness round
trip: assign (reactivating the revoked document), then revoke again. -/
def wReactC7 : AssignmentDoc :=
  { uuid_id := "A", student_uuid := "s1", course_uuid := "c1",
    assigned_by_role := "admin", assigned_by_uuid := "ad1",
    assigned_at := 5, status := "active" }

def wStateC7b : State := { wStateC7 with user_courses := [wReactC7] }

def wStateC7c : State :=
  { wStateC7 with user_courses := [{ wReactC7 with status := "revoked" }] }

/-- Witness for C7 amended: reactivation keeps the stored id A and stamps
a fresh timestamp; the single-student create leaves exactly one document
for the pair; revocation preserves the pair count. -/
theorem C7_amended_witness :
    ((assign_one wStateC7 wIdentityC7 "c1" "s1" "B" 5).2.uuid_id =
        wRevokedC7.uuid_id ∧
      (assign_one wStateC7 wIdentityC7 "c1" "s1" "B" 5).2.status =
        "active" ∧
      (assign_one wStateC7 wIdentityC7 "c1" "s1" "B" 5).2.assigned_at = 5) ∧
    wStateC7b.user_courses.countP (assignPair "s1" "c1") = 1 ∧
    wStateC7c.user_courses.countP (assignPair "s1" "c1") =
      wStateC7b.user_courses.countP (assignPair "s1" "c1") :=
  ⟨C7_amended.1 wStateC7 wIdentityC7 "c1" "s1" "B" 5 wRevokedC7
      (by decide) (by decide) (by decide),
    C7_amended.2.2.2.2.1 wStateC7 wIdentityC7 "c1" "s1" "B" [] 5 wStateC7b
      [wReactC7] (by decide) (by decide) (by decide),
    C7_amended.2.2.2.2.2 wStateC7b "A" wStateC7c "s1" "c1" (by decide)⟩

/-! ## Topic management service (routes/topics.py) -/

/-- The course-and-order filter on topic documents. -/
def topicAt (c : String) (x : Int) (t : TopicDoc) : Bool :=
  t.course_uuid == c && t.order_index == x

/-- The number of topics of a course stored at a given order index. -/
def orderCount (st : State) (c : String) (x : Int) : Nat :=
  st.topics.countP (topicAt c x)

/-- The course's order indexes are exactly the dense unique sequence
from 1 to N: each of those positions occurs once, nothing else occurs. -/
def DenseOrders (st : State) (c : String) (N : Nat) : Prop :=
  ∀ x : Int, orderCount st c x = if 1 ≤ x ∧ x ≤ (N : Int) then 1 else 0

/-- The update_many $inc of create_topic on an order collision: every
topic of the course at or after the chosen index moves up one. -/
def shiftUpFrom (c : String) (k : Int) (t : TopicDoc) : TopicDoc :=
  if t.course_uuid = c ∧ k ≤ t.order_index then
    { t with order_index := t.order_index + 1 }
  else t

/-- The update_many of update_topic for a move to an earlier position:
the window from the new position (inclusive) to the old one (exclusive)
moves up one. -/
def shiftWindowUp (c : String) (lo hi : Int) (t : TopicDoc) : TopicDoc :=
  if t.course_uuid = c ∧ lo ≤ t.order_index ∧ t.order_index < hi then
    { t with order_index := t.order_index + 1 }
  else t

/-- The update_many of update_topic for a move to a later position: the
window from the old position (exclusive) to the new one (inclusive)
moves down one. -/
def shiftWindowDown (c : String) (lo hi : Int) (t : TopicDoc) : TopicDoc :=
  if t.course_uuid = c ∧ lo < t.order_index ∧ t.order_index ≤ hi then
    { t with order_index := t.order_index - 1 }
  else t

/-- Embedding of create_topic (POST /topics/course/id): 404 for an
unknown course; an absent order_index defaults to one past the course
maximum (1 when the course has no topics); on an order collision every
course topic at or after the index is shifted up one before the insert. -/
def create_topic (st : State) (course_id : String) (order : Option Int)
    (newId : String) : Except HttpError (State × TopicDoc) :=
  if (st.courses.find? (fun c => c.uuid_id == course_id)).isNone then
    .error ⟨404, "Course not found"⟩
  else
    let chosen :=
      match order with
      | some o => o
      | none =>
        match ((st.topics.filter (fun t => t.course_uuid == course_id)).map
            (fun t => t.order_index)).max? with
        | some m => m + 1
        | none => 1
    let conflict := (st.topics.find? (topicAt course_id chosen)).isSome
    let topics1 :=
      if conflict then st.topics.map (shiftUpFrom course_id chosen)
      else st.topics
    let doc : TopicDoc :=
      { uuid_id := newId, course_uuid := course_id, order_index := chosen }
    .ok ({ st with topics := topics1 ++ [doc] }, doc)

/-- Embedding of update_topic (PUT /topics/id), restricted to the
order_index field of the TopicUpdate payload (its other fields do not
touch ordering): 404 for an unknown topic; a changed order shifts every
topic strictly between the old and new positions (new inclusive) by one
toward the vacated slot, then the target topic is set to the new
position (update_one on the first uuid match) and refetched. -/
def update_topic (st : State) (topic_id : String) (newOrder : Option Int) :
    Except HttpError (State × TopicDoc) :=
  match st.topics.find? (fun t => t.uuid_id == topic_id) with
  | none => .error ⟨404, "Topic not found"⟩
  | some existing =>
    let course := existing.course_uuid
    let topics1 :=
      match newOrder with
      | some nw =>
        if nw ≠ existing.order_index then
          if nw < existing.order_index then
            st.topics.map (shiftWindowUp course nw existing.order_index)
          else
            st.topics.map (shiftWindowDown course existing.order_index nw)
        else st.topics
      | none => st.topics
    let topics2 :=
      match newOrder with
      | some nw =>
        updateFirst topics1 (fun t => t.uuid_id == topic_id)
          (fun t => { t with order_index := nw })
      | none => topics1
    match topics2.find? (fun t => t.uuid_id == topic_id) with
    | some doc => .ok ({ st with topics := topics2 }, doc)
    | none => .error ⟨500, "Topic lost"⟩

lemma countP_map_shiftUpFrom (c : String) (k x : Int) (l : List TopicDoc) :
    (l.map (shiftUpFrom c k)).countP (topicAt c x) =
      (if k + 1 ≤ x then l.countP (topicAt c (x - 1)) else 0) +
      (if x < k then l.countP (topicAt c x) else 0) := by
  induction l with
  | nil => simp
  | cons t l ih =>
    have hhead : (if topicAt c x (shiftUpFrom c k t) then 1 else 0) =
        (if k + 1 ≤ x then (if topicAt c (x - 1) t then 1 else 0) else 0) +
        (if x < k then (if topicAt c x t then 1 else 0) else 0) := by
      by_cases hc : t.course_uuid = c
      · by_cases hw : k ≤ t.order_index
        · rw [shiftUpFrom, if_pos
            (show t.course_uuid = c ∧ k ≤ t.order_index from ⟨hc, hw⟩)]
          simp only [topicAt, hc, beq_self_eq_true, Bool.true_and,
            beq_iff_eq]
          split_ifs <;> omega
        · rw [shiftUpFrom, if_neg
            (show ¬ (t.course_uuid = c ∧ k ≤ t.order_index) from
              fun h => hw h.2)]
          simp only [topicAt, hc, beq_self_eq_true, Bool.true_and,
            beq_iff_eq]
          split_ifs <;> omega
      · have hcb : (t.course_uuid == c) = false := by
          rw [beq_eq_false_iff_ne]; exact hc
        have hsh : (shiftUpFrom c k t).course_uuid = t.course_uuid := by
          rw [shiftUpFrom]
          split_ifs <;> rfl
        simp [topicAt, hcb, hsh]
    simp only [List.map_cons, List.countP_cons, ih]
    split_ifs at hhead ⊢ <;> omega

lemma countP_map_shiftWindowUp (c : String) (lo hi x : Int)
    (l : List TopicDoc) :
    (l.map (shiftWindowUp c lo hi)).countP (topicAt c x) =
      (if lo < x ∧ x ≤ hi then l.countP (topicAt c (x - 1)) else 0) +
      (if x < lo ∨ hi ≤ x then l.countP (topicAt c x) else 0) := by
  induction l with
  | nil => simp
  | cons t l ih =>
    have hhead : (if topicAt c x (shiftWindowUp c lo hi t) then 1 else 0) =
        (if lo < x ∧ x ≤ hi then (if topicAt c (x - 1) t then 1 else 0)
          else 0) +
        (if x < lo ∨ hi ≤ x then (if topicAt c x t then 1 else 0)
          else 0) := by
      by_cases hc : t.course_uuid = c
      · by_cases hw : lo ≤ t.order_index ∧ t.order_index < hi
        · rw [shiftWindowUp, if_pos
            (show t.course_uuid = c ∧ lo ≤ t.order_index ∧
              t.order_index < hi from ⟨hc, hw.1, hw.2⟩)]
          simp only [topicAt, hc, beq_self_eq_true, Bool.true_and,
            beq_iff_eq]
          split_ifs <;> omega
        · rw [shiftWindowUp, if_neg
            (show ¬ (t.course_uuid = c ∧ lo ≤ t.order_index ∧
              t.order_index < hi) from fun h => hw h.2)]
          simp only [topicAt, hc, beq_self_eq_true, Bool.true_and,
            beq_iff_eq]
          split_ifs <;> omega
      · have hcb : (t.course_uuid == c) = false := by
          rw [beq_eq_false_iff_ne]; exact hc
        have hsh : (shiftWindowUp c lo hi t).course_uuid = t.course_uuid := by
          rw [shiftWindowUp]
          split_ifs <;> rfl
        simp [topicAt, hcb, hsh]
    simp only [List.map_cons, List.countP_cons, ih]
    split_ifs at hhead ⊢ <;> omega

lemma countP_map_shiftWindowDown (c : String) (lo hi x : Int)
    (l : List TopicDoc) :
    (l.map (shiftWindowDown c lo hi)).countP (topicAt c x) =
      (if lo ≤ x ∧ x < hi then l.countP (topicAt c (x + 1)) else 0) +
      (if x ≤ lo ∨ hi < x then l.countP (topicAt c x) else 0) := by
  induction l with
  | nil => simp
  | cons t l ih =>
    have hhead : (if topicAt c x (shiftWindowDown c lo hi t) then 1 else 0) =
        (if lo ≤ x ∧ x < hi then (if topicAt c (x + 1) t then 1 else 0)
          else 0) +
        (if x ≤ lo ∨ hi < x then (if topicAt c x t then 1 else 0)
          else 0) := by
      by_cases hc : t.course_uuid = c
      · by_cases hw : lo < t.order_index ∧ t.order_index ≤ hi
        · rw [shiftWindowDown, if_pos
            (show t.course_uuid = c ∧ lo < t.order_index ∧
              t.order_index ≤ hi from ⟨hc, hw.1, hw.2⟩)]
          simp only [topicAt, hc, beq_self_eq_true, Bool.true_and,
            beq_iff_eq]
          split_ifs <;> omega
        · rw [shiftWindowDown, if_neg
            (show ¬ (t.course_uuid = c ∧ lo < t.order_index ∧
              t.order_index ≤ hi) from fun h => hw h.2)]
          simp only [topicAt, hc, beq_self_eq_true, Bool.true_and,
            beq_iff_eq]
          split_ifs <;> omega
      · have hcb : (t.course_uuid == c) = false := by
          rw [beq_eq_false_iff_ne]; exact hc
        have hsh : (shiftWindowDown c lo hi t).course_uuid = t.course_uuid := by
          rw [shiftWindowDown]
          split_ifs <;> rfl
        simp [topicAt, hcb, hsh]
    simp only [List.map_cons, List.countP_cons, ih]
    split_ifs at hhead ⊢ <;> omega

lemma shift_preserves_course_count (st2top : List TopicDoc)
    (c : String) (f : TopicDoc → TopicDoc)
    (hf : ∀ t, (f t).course_uuid = t.course_uuid) :
    (st2top.map f).countP (fun t => t.course_uuid == c) =
      st2top.countP (fun t => t.course_uuid == c) := by
  rw [List.countP_map]
  apply List.countP_congr
  intro t _
  simp [Function.comp_apply, hf t]

/-- C8: with the course's order indexes forming the dense unique
sequence 1..N, creating a topic at an explicit index k between 1 and N
yields the dense unique sequence 1..N+1 with one more course topic, and
moving an existing topic to any position q between 1 and N preserves the
dense unique 1..N sequence and the course topic count, whichever the
move direction. -/
theorem C8_order_shift_invariant :
    (∀ st c N k newId st2 doc,
      DenseOrders st c N →
      1 ≤ k → k ≤ (N : Int) →
      create_topic st c (some k) newId = .ok (st2, doc) →
      (DenseOrders st2 c (N + 1) ∧
        st2.topics.countP (fun t => t.course_uuid == c) =
          st.topics.countP (fun t => t.course_uuid == c) + 1)) ∧
    (∀ st tid q N st2 doc t0,
      st.topics.find? (fun t => t.uuid_id == tid) = some t0 →
      DenseOrders st t0.course_uuid N →
      1 ≤ q → q ≤ (N : Int) →
      update_topic st tid (some q) = .ok (st2, doc) →
      (DenseOrders st2 t0.course_uuid N ∧
        st2.topics.countP (fun t => t.course_uuid == t0.course_uuid) =
          st.topics.countP (fun t => t.course_uuid == t0.course_uuid))) := by
  constructor
  · intro st c N k newId st2 doc hD hk1 hk2 heq
    rw [create_topic] at heq
    by_cases h1 : (st.courses.find? (fun cc => cc.uuid_id == c)).isNone = true
    · rw [if_pos h1] at heq
      exact absurd heq (by simp)
    · rw [if_neg h1] at heq
      have hconf : (st.topics.find? (topicAt c k)).isSome = true := by
        rw [List.find?_isSome]
        have hk := hD k
        rw [orderCount] at hk
        rw [if_pos ⟨hk1, hk2⟩] at hk
        have hpos : 0 < st.topics.countP (topicAt c k) := by omega
        obtain ⟨t, ht, hp⟩ := List.countP_pos.mp hpos
        exact ⟨t, ht, hp⟩
      simp only [] at heq
      rw [if_pos hconf] at heq
      simp only [Except.ok.injEq, Prod.mk.injEq] at heq
      obtain ⟨hst2, hdoc⟩ := heq
      subst hst2
      constructor
      · intro x
        have h1x := hD x
        have h2x := hD (x - 1)
        rw [orderCount] at h1x h2x ⊢
        simp only [List.countP_append]
        rw [countP_map_shiftUpFrom]
        have hsingle : List.countP (topicAt c x)
            [({ uuid_id := newId, course_uuid := c, order_index := k } :
              TopicDoc)] = if x = k then 1 else 0 := by
          simp only [List.countP_cons, List.countP_nil, topicAt,
            beq_self_eq_true, Bool.true_and, beq_iff_eq]
          split_ifs with hxk hxk2 hxk2 <;> omega
        rw [hsingle]
        push_cast at *
        split_ifs at h1x h2x ⊢ <;> omega
      · simp only [List.countP_append]
        rw [shift_preserves_course_count st.topics c (shiftUpFrom c k)]
        · simp
        · intro t
          rw [shiftUpFrom]
          split_ifs <;> rfl
  · intro st tid q N st2 doc t0 hfind hD hq1 hq2 heq
    rw [update_topic, hfind] at heq
    simp only [] at heq
    set c := t0.course_uuid with hc
    set p := t0.order_index with hp
    have hprange : 1 ≤ p ∧ p ≤ (N : Int) := by
      have hcd := hD p
      rw [orderCount] at hcd
      have hpos : 0 < st.topics.countP (topicAt c p) := by
        apply List.countP_pos.mpr
        refine ⟨t0, List.mem_of_find?_eq_some hfind, ?_⟩
        simp [topicAt]
      by_cases hr : 1 ≤ p ∧ p ≤ (N : Int)
      · exact hr
      · rw [if_neg hr] at hcd
        omega
    -- the target topic is unchanged by either window shift
    have ht0up : shiftWindowUp c q p t0 = t0 := by
      rw [shiftWindowUp, if_neg]
      rintro ⟨-, -, hlt⟩
      exact absurd hlt (lt_irrefl p)
    have ht0down : shiftWindowDown c p q t0 = t0 := by
      rw [shiftWindowDown, if_neg]
      rintro ⟨-, hlt, -⟩
      exact absurd hlt (lt_irrefl p)
    by_cases hne : q ≠ p
    · rw [if_pos hne] at heq
      by_cases hlt : q < p
      · rw [if_pos hlt] at heq
        have hfind1 : (st.topics.map (shiftWindowUp c q p)).find?
            (fun t => t.uuid_id == tid) = some t0 := by
          rw [List.find?_map]
          have hcomp : ((fun t : TopicDoc => t.uuid_id == tid) ∘
              shiftWindowUp c q p) = (fun t : TopicDoc => t.uuid_id == tid) := by
            funext t
            rw [Function.comp_apply, shiftWindowUp]
            split_ifs <;> rfl
          rw [hcomp, hfind]
          simp [ht0up]
        have hupd := fun x => countP_updateFirst
          (st.topics.map (shiftWindowUp c q p))
          (fun t => t.uuid_id == tid) (topicAt c x)
          (fun t => { t with order_index := q }) t0 hfind1
        cases hfd : (updateFirst (st.topics.map (shiftWindowUp c q p))
            (fun t => t.uuid_id == tid)
            (fun t => { t with order_index := q })).find?
            (fun t => t.uuid_id == tid) with
        | none =>
          rw [hfd] at heq
          exact absurd heq (by simp)
        | some d =>
          rw [hfd] at heq
          simp only [Except.ok.injEq, Prod.mk.injEq] at heq
          obtain ⟨hst2, -⟩ := heq
          subst hst2
          constructor
          · intro x
            have h1x := hD x
            have h2x := hD (x - 1)
            rw [orderCount] at h1x h2x ⊢
            simp only []
            have hux := hupd x
            rw [countP_map_shiftWindowUp] at hux
            have ht0x : (topicAt c x t0 = true) ↔ x = p := by
              rw [topicAt, Bool.and_eq_true, beq_iff_eq, beq_iff_eq]
              constructor
              · rintro ⟨-, h2⟩
                exact h2.symm
              · intro h
                exact ⟨hc.symm, h.symm⟩
            have htgt : (topicAt c x { t0 with order_index := q } = true)
                ↔ x = q := by
              rw [topicAt, Bool.and_eq_true, beq_iff_eq, beq_iff_eq]
              constructor
              · rintro ⟨-, h2⟩
                exact h2.symm
              · intro h
                exact ⟨hc.symm, h.symm⟩
            rw [show (if topicAt c x t0 = true then 1 else 0) =
                (if x = p then 1 else 0) from by
              split_ifs with ha hb hb
              · rfl
              · exact absurd (ht0x.mp ha) hb
              · exact absurd (ht0x.mpr hb) ha
              · rfl] at hux
            rw [show (if topicAt c x { t0 with order_index := q } = true
                then 1 else 0) = (if x = q then 1 else 0) from by
              split_ifs with ha hb hb
              · rfl
              · exact absurd (htgt.mp ha) hb
              · exact absurd (htgt.mpr hb) ha
              · rfl] at hux
            push_cast at *
            split_ifs at h1x h2x hux ⊢ <;> omega
          · have hcourse := countP_updateFirst
              (st.topics.map (shiftWindowUp c q p))
              (fun t => t.uuid_id == tid)
              (fun t => (t : TopicDoc).course_uuid == c)
              (fun t => { t with order_index := q }) t0 hfind1
            simp only []
            rw [shift_preserves_course_count st.topics c
              (shiftWindowUp c q p)] at hcourse
            · simp only [] at hcourse
              omega
            · intro t
              rw [shiftWindowUp]
              split_ifs <;> rfl
      · have hgt : p < q := by omega
        rw [if_neg hlt] at heq
        have hfind1 : (st.topics.map (shiftWindowDown c p q)).find?
            (fun t => t.uuid_id == tid) = some t0 := by
          rw [List.find?_map]
          have hcomp : ((fun t : TopicDoc => t.uuid_id == tid) ∘
              shiftWindowDown c p q) = (fun t : TopicDoc => t.uuid_id == tid) := by
            funext t
            rw [Function.comp_apply, shiftWindowDown]
            split_ifs <;> rfl
          rw [hcomp, hfind]
          simp [ht0down]
        have hupd := fun x => countP_updateFirst
          (st.topics.map (shiftWindowDown c p q))
          (fun t => t.uuid_id == tid) (topicAt c x)
          (fun t => { t with order_index := q }) t0 hfind1
        cases hfd : (updateFirst (st.topics.map (shiftWindowDown c p q))
            (fun t => t.uuid_id == tid)
            (fun t => { t with order_index := q })).find?
            (fun t => t.uuid_id == tid) with
        | none =>
          rw [hfd] at heq
          exact absurd heq (by simp)
        | some d =>
          rw [hfd] at heq
          simp only [Except.ok.injEq, Prod.mk.injEq] at heq
          obtain ⟨hst2, -⟩ := heq
          subst hst2
          constructor
          · intro x
            have h1x := hD x
            have h3x := hD (x + 1)
            rw [orderCount] at h1x h3x ⊢
            simp only []
            have hux := hupd x
            rw [countP_map_shiftWindowDown] at hux
            have ht0x : (topicAt c x t0 = true) ↔ x = p := by
              rw [topicAt, Bool.and_eq_true, beq_iff_eq, beq_iff_eq]
              constructor
              · rintro ⟨-, h2⟩
                exact h2.symm
              · intro h
                exact ⟨hc.symm, h.symm⟩
            have htgt : (topicAt c x { t0 with order_index := q } = true)
                ↔ x = q := by
              rw [topicAt, Bool.and_eq_true, beq_iff_eq, beq_iff_eq]
              constructor
              · rintro ⟨-, h2⟩
                exact h2.symm
              · intro h
                exact ⟨hc.symm, h.symm⟩
            rw [show (if topicAt c x t0 = true then 1 else 0) =
                (if x = p then 1 else 0) from by
              split_ifs with ha hb hb
              · rfl
              · exact absurd (ht0x.mp ha) hb
              · exact absurd (ht0x.mpr hb) ha
              · rfl] at hux
            rw [show (if topicAt c x { t0 with order_index := q } = true
                then 1 else 0) = (if x = q then 1 else 0) from by
              split_ifs with ha hb hb
              · rfl
              · exact absurd (htgt.mp ha) hb
              · exact absurd (htgt.mpr hb) ha
              · rfl] at hux
            push_cast at *
            split_ifs at h1x h3x hux ⊢ <;> omega
          · have hcourse := countP_updateFirst
              (st.topics.map (shiftWindowDown c p q))
              (fun t => t.uuid_id == tid)
              (fun t => (t : TopicDoc).course_uuid == c)
              (fun t => { t with order_index := q }) t0 hfind1
            simp only []
            rw [shift_preserves_course_count st.topics c
              (shiftWindowDown c p q)] at hcourse
            · simp only [] at hcourse
              omega
            · intro t
              rw [shiftWindowDown]
              split_ifs <;> rfl
    · rw [if_neg hne] at heq
      have hqp : q = p := by omega
      have hupd := fun x => countP_updateFirst st.topics
        (fun t => t.uuid_id == tid) (topicAt c x)
        (fun t => { t with order_index := q }) t0 hfind
      cases hfd : (updateFirst st.topics (fun t => t.uuid_id == tid)
          (fun t => { t with order_index := q })).find?
          (fun t => t.uuid_id == tid) with
      | none =>
        rw [hfd] at heq
        exact absurd heq (by simp)
      | some d =>
        rw [hfd] at heq
        simp only [Except.ok.injEq, Prod.mk.injEq] at heq
        obtain ⟨hst2, -⟩ := heq
        subst hst2
        constructor
        · intro x
          have h1x := hD x
          rw [orderCount] at h1x ⊢
          simp only []
          have hux := hupd x
          have hsame : topicAt c x { t0 with order_index := q } =
              topicAt c x t0 := by
            simp [topicAt, hqp, hp]
          rw [hsame] at hux
          omega
        · have hcourse := countP_updateFirst st.topics
            (fun t => t.uuid_id == tid)
            (fun t => (t : TopicDoc).course_uuid == c)
            (fun t => { t with order_index := q }) t0 hfind
          simp only [] at hcourse
          simp only []
          omega

/-- A concrete course with topics at the dense positions 1, 2, 3,
exercising both C8 operations. -/
def wTopic1 : TopicDoc := ⟨"t1", "c1", 1⟩

def wTopic2 : TopicDoc := ⟨"t2", "c1", 2⟩

def wTopic3 : TopicDoc := ⟨"t3", "c1", 3⟩

def wStateC8 : State :=
  { admins := [], students := [], courses := [⟨"c1", "Intro"⟩],
    topics := [wTopic1, wTopic2, wTopic3], videos := [], user_courses := [],
    user_progress := [], certificates := [], departments := [] }

/-- After creating topic t4 at index 2: positions shift to 1, 3, 4, 2. -/
def wStateC8b : State :=
  { wStateC8 with topics :=
      [wTopic1, ⟨"t2", "c1", 3⟩, ⟨"t3", "c1", 4⟩, ⟨"t4", "c1", 2⟩] }

/-- After moving t3 from position 3 to position 1: 2, 3, 1. -/
def wStateC8c : State :=
  { wStateC8 with topics :=
      [⟨"t1", "c1", 2⟩, ⟨"t2", "c1", 3⟩, ⟨"t3", "c1", 1⟩] }

lemma wStateC8_dense : DenseOrders wStateC8 "c1" 3 := by
  intro x
  rw [orderCount]
  show List.countP (topicAt "c1" x) [wTopic1, wTopic2, wTopic3] = _
  simp only [List.countP_cons, List.countP_nil, topicAt, wTopic1, wTopic2,
    wTopic3, beq_self_eq_true, Bool.true_and, beq_iff_eq]
  push_cast
  split_ifs <;> omega

/-- Witness for C8: the create and the move applied to the concrete
three-topic course. -/
theorem C8_order_shift_invariant_witness :
    (DenseOrders wStateC8b "c1" (3 + 1) ∧
      wStateC8b.topics.countP (fun t => t.course_uuid == "c1") =
        wStateC8.topics.countP (fun t => t.course_uuid == "c1") + 1) ∧
    (DenseOrders wStateC8c wTopic3.course_uuid 3 ∧
      wStateC8c.topics.countP
          (fun t => t.course_uuid == wTopic3.course_uuid) =
        wStateC8.topics.countP
          (fun t => t.course_uuid == wTopic3.course_uuid)) :=
  ⟨C8_order_shift_invariant.1 wStateC8 "c1" 3 2 "t4" wStateC8b
      ⟨"t4", "c1", 2⟩ wStateC8_dense (by decide) (by decide) (by decide),
    C8_order_shift_invariant.2 wStateC8 "t3" 1 3 wStateC8c
      ⟨"t3", "c1", 1⟩ wTopic3 (by decide) wStateC8_dense (by decide)
      (by decide) (by decide)⟩

/-! ## Course progress aggregation (utils/progress.py) -/

/-- Python round(x, 2) over the exact rationals: scale by 100, round to
the nearest integer (half up), scale back.  Written with mkRat and
integer floor division so that it evaluates by kernel reduction;
round2_eq gives the arithmetic characterization.  Python rounds float
ties to even, but none of the values this program rounds is an exact
tie, so half-up is an equivalent exact model. -/
def round2 (q : ℚ) : ℚ :=
  mkRat ((200 * q.num + (q.den : Int)).fdiv (2 * (q.den : Int))) 100

lemma round2_eq (q : ℚ) :
    round2 q = ((⌊q * 100 + 1 / 2⌋ : ℤ) : ℚ) / 100 := by
  rw [round2, Rat.mkRat_eq_div]
  have hfl : ⌊q * 100 + 1 / 2⌋ =
      (200 * q.num + (q.den : ℤ)).fdiv (2 * (q.den : ℤ)) := by
    rw [Int.fdiv_eq_ediv _ (by positivity)]
    have hd0 : ((q.den : ℚ)) ≠ 0 := by
      exact_mod_cast q.den_ne_zero
    have hqq : q * 100 + 1 / 2 =
        (((200 * q.num + (q.den : ℤ) : ℤ)) : ℚ) / (((2 * q.den : ℕ)) : ℚ) := by
      conv_lhs => rw [← Rat.num_div_den q]
      push_cast
      field_simp
      ring
    rw [hqq]
    have hcast := Rat.floor_intCast_div_natCast
      (200 * q.num + (q.den : ℤ)) (2 * q.den)
    rw [hcast]
    push_cast
    rfl
  rw [hfl]
  norm_num

/-- The duration read from a video document for aggregation. -/
def videoDur (v : VideoDoc) : Int := v.duration_seconds.getD 0

/-- Lookup in the video_map dict comprehension keyed by uuid_id: a
duplicate key keeps the last video (dict overwrite). -/
def video_map_get (videos : List VideoDoc) (vid : String) (default : Int) :
    Int :=
  match videos.reverse.find? (fun v => v.uuid_id == vid) with
  | some v => videoDur v
  | none => default

/-- The key list of the video_map dict. -/
def video_map_keys (videos : List VideoDoc) : List String :=
  (videos.map (fun v => v.uuid_id)).dedup

/-- The CourseProgressResponse summary record. -/
structure CourseSummary where
  course_uuid : String
  total_videos : Nat
  completed_videos : Nat
  progress_percent : ℚ
  learning_seconds : Int
  learning_hours : ℚ
  deriving DecidableEq

/-- Embedding of compute_course_progress from utils/progress.py: the
all-zero summary when the course has no videos; otherwise the per-row
seconds capped at that row's video_map duration are summed, divided by
the video_map value total (guarded to 1 when zero), scaled to percent
and rounded; completed rows are counted; hours are seconds / 3600
rounded. -/
def compute_course_progress (st : State) (student_uuid course_uuid : String) :
    CourseSummary :=
  let videos := st.videos.filter (fun v => v.course_uuid == course_uuid)
  if videos.isEmpty then
    { course_uuid := course_uuid, total_videos := 0, completed_videos := 0,
      progress_percent := 0, learning_seconds := 0, learning_hours := 0 }
  else
    let total_duration_sum :=
      ((video_map_keys videos).map (fun k => video_map_get videos k 0)).sum
    let total_duration :=
      if total_duration_sum = 0 then 1 else total_duration_sum
    let progress_docs := st.user_progress.filter (fun p =>
      p.student_uuid == student_uuid && p.course_uuid == course_uuid)
    let watched_sum := (progress_docs.map (fun p =>
      min p.seconds_watched (video_map_get videos p.video_uuid 0))).sum
    { course_uuid := course_uuid
      total_videos := videos.length
      completed_videos := progress_docs.countP (fun p => p.completed)
      progress_percent := round2 (Rat.divInt (watched_sum * 100) total_duration)
      learning_seconds := watched_sum
      learning_hours := round2 (Rat.divInt watched_sum 3600) }

lemma reverse_find?_of_nodup (videos : List VideoDoc)
    (hnd : (videos.map (fun v => v.uuid_id)).Nodup) (v : VideoDoc)
    (hv : v ∈ videos) :
    videos.reverse.find? (fun w => w.uuid_id == v.uuid_id) = some v := by
  cases hfd : videos.reverse.find? (fun w => w.uuid_id == v.uuid_id) with
  | none =>
    exfalso
    have hnone := List.find?_eq_none.mp hfd v (List.mem_reverse.mpr hv)
    simp at hnone
  | some w =>
    have hwmem : w ∈ videos := List.mem_reverse.mp
      (List.mem_of_find?_eq_some hfd)
    have hwid : w.uuid_id = v.uuid_id := by
      have hfp := List.find?_some hfd
      rwa [beq_iff_eq] at hfp
    rw [List.inj_on_of_nodup_map hnd hwmem hv hwid]

/-- The duration of the first course video carrying an id, as the claim
words it: that video's duration, 0 when the id matches no video. -/
def first_video_duration (videos : List VideoDoc) (u : String) : Int :=
  match videos.find? (fun v => v.uuid_id == u) with
  | some v => videoDur v
  | none => 0

lemma video_map_get_eq (videos : List VideoDoc)
    (hnd : (videos.map (fun v => v.uuid_id)).Nodup) (u : String) :
    video_map_get videos u 0 = first_video_duration videos u := by
  rw [first_video_duration]
  cases hfd : videos.find? (fun v => v.uuid_id == u) with
  | none =>
    rw [video_map_get]
    cases hr : videos.reverse.find? (fun v => v.uuid_id == u) with
    | none => rfl
    | some w =>
      exfalso
      have hmem := List.mem_reverse.mp (List.mem_of_find?_eq_some hr)
      have hnone := List.find?_eq_none.mp hfd w hmem
      have hp := List.find?_some hr
      exact hnone hp
  | some v =>
    have hvm := List.mem_of_find?_eq_some hfd
    have hvid : v.uuid_id = u := by
      have hfp := List.find?_some hfd
      rwa [beq_iff_eq] at hfp
    rw [video_map_get]
    rw [show (fun w : VideoDoc => w.uuid_id == u) =
        (fun w : VideoDoc => w.uuid_id == v.uuid_id) by rw [hvid]]
    rw [reverse_find?_of_nodup videos hnd v hvm]

lemma video_map_total_eq (videos : List VideoDoc)
    (hnd : (videos.map (fun v => v.uuid_id)).Nodup) :
    ((video_map_keys videos).map (fun k => video_map_get videos k 0)).sum =
      (videos.map videoDur).sum := by
  rw [video_map_keys, List.dedup_eq_self.mpr hnd, List.map_map]
  apply congrArg List.sum
  apply List.map_congr_left
  intro v hv
  rw [Function.comp_apply]
  show video_map_get videos v.uuid_id 0 = videoDur v
  rw [video_map_get, reverse_find?_of_nodup videos hnd v hv]

/-- The worked example of the specification: durations 100 and 200,
seconds watched 100 and 50, neither row completed. -/
def wVideoC9a : VideoDoc :=
  { uuid_id := "v1", course_uuid := "c1", topic_uuid := "t1",
    duration := none, duration_seconds := some 100, order_index := 1,
    is_preview := false }

def wVideoC9b : VideoDoc :=
  { uuid_id := "v2", course_uuid := "c1", topic_uuid := "t1",
    duration := none, duration_seconds := some 200, order_index := 2,
    is_preview := false }

def wRowC9a : ProgressDoc :=
  { student_uuid := "s1", course_uuid := "c1", topic_uuid := "t1",
    video_uuid := "v1", seconds_watched := 100, last_position_sec := 100,
    completed := false, last_watched_at := 1 }

def wRowC9b : ProgressDoc :=
  { student_uuid := "s1", course_uuid := "c1", topic_uuid := "t1",
    video_uuid := "v2", seconds_watched := 50, last_position_sec := 50,
    completed := false, last_watched_at := 1 }

def wStateC9 : State :=
  { admins := [], students := [], courses := [⟨"c1", "Intro"⟩],
    topics := [], videos := [wVideoC9a, wVideoC9b], user_courses := [],
    user_progress := [wRowC9a, wRowC9b], certificates := [],
    departments := [] }

/-- C9: compute_course_progress returns the all-zero summary for a
course with no videos; for distinct video ids it returns the
completed-row count, the capped watched-seconds sum, progress_percent =
round(100 * capped-sum / guarded total duration, 2) and learning_hours =
round(seconds / 3600, 2); and the specification's worked example gives
(50.0, 0 completed, 150 seconds, 0.04 hours). -/
theorem C9_course_progress :
    (∀ st s c,
      st.videos.filter (fun v => v.course_uuid == c) = [] →
      compute_course_progress st s c =
        { course_uuid := c, total_videos := 0, completed_videos := 0,
          progress_percent := 0, learning_seconds := 0,
          learning_hours := 0 }) ∧
    (∀ (st : State) (s c : String) (videos : List VideoDoc)
        (rows : List ProgressDoc) (watched total : ℤ),
      videos = st.videos.filter (fun v => v.course_uuid == c) →
      rows = st.user_progress.filter (fun p =>
        p.student_uuid == s && p.course_uuid == c) →
      watched = (rows.map (fun p => min p.seconds_watched
        (first_video_duration videos p.video_uuid))).sum →
      total = (videos.map videoDur).sum →
      (videos.map (fun v => v.uuid_id)).Nodup →
      videos ≠ [] →
      compute_course_progress st s c =
        { course_uuid := c
          total_videos := videos.length
          completed_videos := rows.countP (fun p => p.completed)
          progress_percent := round2 (100 * (watched : ℚ) /
            (((if total = 0 then 1 else total) : ℤ) : ℚ))
          learning_seconds := watched
          learning_hours := round2 ((watched : ℚ) / 3600) }) ∧
    compute_course_progress wStateC9 "s1" "c1" =
      { course_uuid := "c1", total_videos := 2, completed_videos := 0,
        progress_percent := 50, learning_seconds := 150,
        learning_hours := mkRat 1 25 } := by
  refine ⟨?_, ?_, by decide⟩
  · intro st s c hfil
    rw [compute_course_progress]
    rw [if_pos (by rw [hfil]; rfl)]
  · intro st s c videos rows watched total hv hr hw ht hnd hne
    subst hv
    subst hr
    subst hw
    subst ht
    rw [compute_course_progress]
    simp only []
    rw [if_neg (by
      intro hcon
      exact hne (List.isEmpty_iff.mp hcon))]
    have hmap : (st.user_progress.filter (fun p =>
        p.student_uuid == s && p.course_uuid == c)).map
          (fun p => min p.seconds_watched (video_map_get
            (st.videos.filter (fun v => v.course_uuid == c))
            p.video_uuid 0)) =
        (st.user_progress.filter (fun p =>
        p.student_uuid == s && p.course_uuid == c)).map
          (fun p => min p.seconds_watched (first_video_duration
            (st.videos.filter (fun v => v.course_uuid == c))
            p.video_uuid)) := by
      apply List.map_congr_left
      intro p hp
      rw [video_map_get_eq _ hnd]
    rw [hmap]
    rw [video_map_total_eq _ hnd]
    have hpct : ∀ w T : ℤ, Rat.divInt (w * 100) T =
        100 * (w : ℚ) / (T : ℚ) := by
      intro w T
      rw [Rat.divInt_eq_div]
      push_cast
      ring
    have hhrs : ∀ w : ℤ, Rat.divInt w 3600 = (w : ℚ) / 3600 := by
      intro w
      rw [Rat.divInt_eq_div]
      norm_num
    rw [hpct, hhrs]

/-- Witness: C9_course_progress instantiated at the worked example —
the empty part at course c0 (no videos), the aggregation part at course
c1 with watched sum 150 and total duration 300. -/
theorem C9_course_progress_witness :
    (compute_course_progress wStateC9 "s1" "c0" =
      { course_uuid := "c0", total_videos := 0, completed_videos := 0,
        progress_percent := 0, learning_seconds := 0,
        learning_hours := 0 }) ∧
    compute_course_progress wStateC9 "s1" "c1" =
      { course_uuid := "c1"
        total_videos := (wStateC9.videos.filter
          (fun v => v.course_uuid == "c1")).length
        completed_videos := (wStateC9.user_progress.filter (fun p =>
          p.student_uuid == "s1" && p.course_uuid == "c1")).countP
          (fun p => p.completed)
        progress_percent := round2 (100 * ((150 : ℤ) : ℚ) /
          (((if (300 : ℤ) = 0 then 1 else 300) : ℤ) : ℚ))
        learning_seconds := 150
        learning_hours := round2 (((150 : ℤ) : ℚ) / 3600) } := by
  constructor
  · exact C9_course_progress.1 wStateC9 "s1" "c0" (by decide)
  · exact C9_course_progress.2.1 wStateC9 "s1" "c1" _ _ 150 300 rfl rfl
      (by decide) (by decide) (by decide) (by decide)

end LMS
